import Mathlib

/-!
# validator-key-gen: `MnemonicsGenerator/mnemonicGenerator.go`

A shallow embedding of the child-mnemonic derivation (`generateFromMasterMnemonic`)
and of the master key-set orchestration (`MasterKeysGen`) together with the Go
standard-library routines they call (`fmt.Sprintf` with `%s`, `strings.ToLower`,
`strings.ReplaceAll`, `crypto/sha256`, `encoding/hex`).

Go strings and byte slices are lists of bytes (`Nat` values below 256).
Machine words are `Nat` with explicit reduction modulo `2 ^ 32` or `2 ^ 64`.
-/

namespace ValidatorKeyGen

/-- A Go `string` or `[]byte`: a sequence of bytes. -/
abbrev Bytes := List Nat

/-- The bytes of an ASCII string literal of the source. -/
def lit (s : String) : Bytes := s.toList.map Char.toNat

/-! ## `unicode/utf8` -/

/-- The constant `utf8.RuneError` (U+FFFD). -/
def RuneError : Nat := 0xFFFD

/-- The size field of the table `first`: the length of the encoding that the
leading byte `s0` announces (1 for ASCII and for the bytes that cannot lead). -/
def runeSize (s0 : Nat) : Nat :=
  if s0 < 0xC2 then 1 else if s0 < 0xE0 then 2 else if s0 < 0xF0 then 3
  else if s0 < 0xF5 then 4 else 1

/-- The low end of `acceptRanges` for the second byte after the leading byte `s0`. -/
def acceptLo (s0 : Nat) : Nat :=
  if s0 = 0xE0 then 0xA0 else if s0 = 0xF0 then 0x90 else 0x80

/-- The high end of `acceptRanges` for the second byte after the leading byte `s0`. -/
def acceptHi (s0 : Nat) : Nat :=
  if s0 = 0xED then 0x9F else if s0 = 0xF4 then 0x8F else 0xBF

/-- A continuation byte: between `locb` and `hicb`. -/
def isCont (b : Nat) : Bool := decide (0x80 ≤ b ∧ b ≤ 0xBF)

/-- The body of Go `utf8.DecodeRuneInString` on a string of length `n` whose
first four bytes are `s0`, `s1`, `s2`, `s3` (a byte is read only after the length
check that guards it). -/
def decodeRuneAt (n s0 s1 s2 s3 : Nat) : Nat × Nat :=
  if n < 1 then (RuneError, 0)
  else if s0 < 0x80 then (s0, 1)
  else if runeSize s0 = 1 then (RuneError, 1)
  else if n < runeSize s0 then (RuneError, 1)
  else if s1 < acceptLo s0 ∨ acceptHi s0 < s1 then (RuneError, 1)
  else if runeSize s0 ≤ 2 then (((s0 &&& 0x1F) <<< 6) ||| (s1 &&& 0x3F), 2)
  else if isCont s2 = false then (RuneError, 1)
  else if runeSize s0 ≤ 3 then
    (((s0 &&& 0x0F) <<< 12) ||| ((s1 &&& 0x3F) <<< 6) ||| (s2 &&& 0x3F), 3)
  else if isCont s3 = false then (RuneError, 1)
  else
    (((s0 &&& 0x07) <<< 18) ||| ((s1 &&& 0x3F) <<< 12) ||| ((s2 &&& 0x3F) <<< 6) |||
      (s3 &&& 0x3F), 4)

/-- Go `utf8.DecodeRuneInString`: the first rune of `s` and its width in bytes.
An empty input gives `(RuneError, 0)`, an invalid or truncated encoding gives
`(RuneError, 1)`. -/
def decodeRune (s : Bytes) : Nat × Nat :=
  decodeRuneAt s.length (s.getD 0 0) (s.getD 1 0) (s.getD 2 0) (s.getD 3 0)

/-- Go `utf8.AppendRune` on a non-negative rune: the UTF-8 encoding of `r`;
surrogates and values above `utf8.MaxRune` are encoded as `RuneError`. -/
def encodeRune (r : Nat) : Bytes :=
  if r ≤ 0x7F then [r]
  else if r ≤ 0x7FF then [0xC0 ||| (r >>> 6), 0x80 ||| (r &&& 0x3F)]
  else if 0x10FFFF < r ∨ (0xD800 ≤ r ∧ r ≤ 0xDFFF) then [0xEF, 0xBF, 0xBD]
  else if r ≤ 0xFFFF then
    [0xE0 ||| (r >>> 12), 0x80 ||| ((r >>> 6) &&& 0x3F), 0x80 ||| (r &&& 0x3F)]
  else
    [0xF0 ||| (r >>> 18), 0x80 ||| ((r >>> 12) &&& 0x3F), 0x80 ||| ((r >>> 6) &&& 0x3F),
      0x80 ||| (r &&& 0x3F)]

/-! ## `unicode` and `strings` -/

/-- Go `unicode.ToLower`: ASCII letters are lowered in place; any other rune goes
through `unicode.To(unicode.LowerCase, r)`, whose case tables are taken as the
parameter `caseTable`. -/
def unicodeToLower (caseTable : Nat → Nat) (r : Nat) : Nat :=
  if r ≤ 0x7F then
    if 0x41 ≤ r ∧ r ≤ 0x5A then r + (0x61 - 0x41) else r
  else caseTable r

/-- The rune loop of Go `strings.Map` for a mapping that never returns a negative
rune: every rune of the input, decoded as by `range`, is replaced by the
encoding of its image. The first argument counts the bytes of the current rune
that are still to be skipped. -/
def mapRunesAux (mapping : Nat → Nat) : Nat → Bytes → Bytes
  | _, [] => []
  | k + 1, _ :: rest => mapRunesAux mapping k rest
  | 0, b :: rest =>
    encodeRune (mapping (decodeRune (b :: rest)).1) ++
      mapRunesAux mapping ((decodeRune (b :: rest)).2 - 1) rest

/-- Go `strings.Map(mapping, s)`. -/
def stringsMap (mapping : Nat → Nat) (s : Bytes) : Bytes := mapRunesAux mapping 0 s

/-- Go `strings.ToLower`: an ASCII-only string is lowered byte by byte (and
returned as is when it has no upper-case letter); any other string is mapped
rune by rune with `unicode.ToLower`. -/
def stringsToLower (caseTable : Nat → Nat) (s : Bytes) : Bytes :=
  if s.all (fun c => decide (c < 0x80)) then
    if s.any (fun c => decide (0x41 ≤ c ∧ c ≤ 0x5A)) then
      s.map (fun c => if 0x41 ≤ c ∧ c ≤ 0x5A then c + (0x61 - 0x41) else c)
    else s
  else stringsMap (unicodeToLower caseTable) s

/-- Go `strings.ReplaceAll(s, " ", "")`: every space byte is removed. -/
def removeSpaces (s : Bytes) : Bytes := s.filter (fun c => decide (c ≠ 0x20))

/-! ## `crypto/sha256` -/

/-- The round constants `_K`. -/
def sha256K : List Nat := [
  0x428A2F98, 0x71374491, 0xB5C0FBCF, 0xE9B5DBA5, 0x3956C25B, 0x59F111F1, 0x923F82A4, 0xAB1C5ED5,
  0xD807AA98, 0x12835B01, 0x243185BE, 0x550C7DC3, 0x72BE5D74, 0x80DEB1FE, 0x9BDC06A7, 0xC19BF174,
  0xE49B69C1, 0xEFBE4786, 0x0FC19DC6, 0x240CA1CC, 0x2DE92C6F, 0x4A7484AA, 0x5CB0A9DC, 0x76F988DA,
  0x983E5152, 0xA831C66D, 0xB00327C8, 0xBF597FC7, 0xC6E00BF3, 0xD5A79147, 0x06CA6351, 0x14292967,
  0x27B70A85, 0x2E1B2138, 0x4D2C6DFC, 0x53380D13, 0x650A7354, 0x766A0ABB, 0x81C2C92E, 0x92722C85,
  0xA2BFE8A1, 0xA81A664B, 0xC24B8B70, 0xC76C51A3, 0xD192E819, 0xD6990624, 0xF40E3585, 0x106AA070,
  0x19A4C116, 0x1E376C08, 0x2748774C, 0x34B0BCB5, 0x391C0CB3, 0x4ED8AA4A, 0x5B9CCA4F, 0x682E6FF3,
  0x748F82EE, 0x78A5636F, 0x84C87814, 0x8CC70208, 0x90BEFFFA, 0xA4506CEB, 0xBEF9A3F7, 0xC67178F2]

/-- Go `bits.RotateLeft32(x, -k)` on a 32-bit word. -/
def rotr32 (x k : Nat) : Nat := ((x >>> k) ||| (x <<< (32 - k))) % 2 ^ 32

/-- Addition of `uint32` values. -/
def add32 (x y : Nat) : Nat := (x + y) % 2 ^ 32

/-- Bitwise complement of a `uint32` value. -/
def not32 (x : Nat) : Nat := 2 ^ 32 - 1 - x % 2 ^ 32

/-- The first `n` big-endian 32-bit words of a block. -/
def blockWords : Nat → Bytes → List Nat
  | 0, _ => []
  | n + 1, p =>
    ((p.getD 0 0 <<< 24) ||| (p.getD 1 0 <<< 16) ||| (p.getD 2 0 <<< 8) ||| p.getD 3 0) ::
      blockWords n (p.drop 4)

/-- The message schedule: `n` further words appended to `w`, each computed from
the words 2, 7, 15 and 16 places back. -/
def schedule : Nat → List Nat → List Nat
  | 0, w => w
  | n + 1, w =>
    let i := w.length
    let v1 := w.getD (i - 2) 0
    let t1 := rotr32 v1 17 ^^^ rotr32 v1 19 ^^^ (v1 >>> 10)
    let v2 := w.getD (i - 15) 0
    let t2 := rotr32 v2 7 ^^^ rotr32 v2 18 ^^^ (v2 >>> 3)
    schedule n (w ++ [add32 (add32 (add32 t1 (w.getD (i - 7) 0)) t2) (w.getD (i - 16) 0)])

/-- The eight working variables (and the chaining value `h[0..7]`) of the digest. -/
structure Regs where
  a : Nat
  b : Nat
  c : Nat
  d : Nat
  e : Nat
  f : Nat
  g : Nat
  h : Nat
deriving DecidableEq, Repr

/-- One of the 64 rounds of the block function, for the pair (constant, schedule word). -/
def round (r : Regs) (kw : Nat × Nat) : Regs :=
  let t1 := add32 (add32 (add32 (add32 r.h
      (rotr32 r.e 6 ^^^ rotr32 r.e 11 ^^^ rotr32 r.e 25))
      ((r.e &&& r.f) ^^^ (not32 r.e &&& r.g))) kw.1) kw.2
  let t2 := add32 (rotr32 r.a 2 ^^^ rotr32 r.a 13 ^^^ rotr32 r.a 22)
      ((r.a &&& r.b) ^^^ (r.a &&& r.c) ^^^ (r.b &&& r.c))
  { a := add32 t1 t2, b := r.a, c := r.b, d := r.c, e := add32 r.d t1, f := r.e, g := r.f, h := r.g }

/-- The block function on one 64-byte block. -/
def blockStep (h : Regs) (p : Bytes) : Regs :=
  let w := schedule 48 (blockWords 16 p)
  let r := (sha256K.zip w).foldl round h
  { a := add32 h.a r.a, b := add32 h.b r.b, c := add32 h.c r.c, d := add32 h.d r.d,
    e := add32 h.e r.e, f := add32 h.f r.f, g := add32 h.g r.g, h := add32 h.h r.h }

/-- The block function over `n` consecutive 64-byte blocks. -/
def blocks : Nat → Regs → Bytes → Regs
  | 0, h, _ => h
  | n + 1, h, p => blocks n (blockStep h (p.take 64)) (p.drop 64)

/-- The `n` low bytes of `x`, big-endian. -/
def putBE : Nat → Nat → Bytes
  | 0, _ => []
  | n + 1, x => (x >>> (8 * n)) % 256 :: putBE n x

/-- The padding written by `checkSum` for a message of `len` bytes: `0x80`, then
zeros up to 56 modulo 64, then the length in bits as a big-endian `uint64`. -/
def padding (len : Nat) : Bytes :=
  let t := len % 64
  let n := if t < 56 then 56 - t else 64 + 56 - t
  0x80 :: List.replicate (n - 1) 0 ++ putBE 8 ((len <<< 3) % 2 ^ 64)

/-- The digest that `sha256.New()`, `Write(data)`, `Sum(nil)` returns. -/
def sha256Sum (data : Bytes) : Bytes :=
  let p := data ++ padding data.length
  let h := blocks (p.length / 64)
    { a := 0x6a09e667, b := 0xbb67ae85, c := 0x3c6ef372, d := 0xa54ff53a,
      e := 0x510e527f, f := 0x9b05688c, g := 0x1f83d9ab, h := 0x5be0cd19 } p
  putBE 4 h.a ++ putBE 4 h.b ++ putBE 4 h.c ++ putBE 4 h.d ++
    putBE 4 h.e ++ putBE 4 h.f ++ putBE 4 h.g ++ putBE 4 h.h

/-! ## Errors -/

/-- A Go `error` value: an error of an external package (by its message), or an
error built with `fmt.Errorf`, with or without a wrapped cause (`%w`). -/
inductive GoError where
  | external (msg : Bytes)
  | errorf (msg : Bytes)
  | wrapped (msg : Bytes) (cause : GoError)
deriving DecidableEq, Repr

/-- The method `Error()`: the message; a wrapped cause is rendered after it. -/
def GoError.Error : GoError → Bytes
  | .external msg => msg
  | .errorf msg => msg
  | .wrapped msg cause => msg ++ cause.Error

/-! ## `encoding/hex` -/

/-- The table `hextable`. -/
def hextable : Bytes := lit "0123456789abcdef"

/-- Go `hex.EncodeToString`: two digits per byte, high nibble first. -/
def hexEncodeToString : Bytes → Bytes
  | [] => []
  | v :: rest =>
    hextable.getD (v >>> 4) 0 :: hextable.getD (v &&& 0x0f) 0 :: hexEncodeToString rest

/-- The table `reverseHexTable`: the value of a hexadecimal digit, `0xff` for any
other byte. -/
def reverseHex (c : Nat) : Nat :=
  if 0x30 ≤ c ∧ c ≤ 0x39 then c - 0x30
  else if 0x61 ≤ c ∧ c ≤ 0x66 then c - 0x61 + 10
  else if 0x41 ≤ c ∧ c ≤ 0x46 then c - 0x41 + 10
  else 0xff

/-- Go `strconv.IsPrint` on a rune below 256. -/
def isPrintLatin1 (c : Nat) : Bool :=
  (0x20 ≤ c && c ≤ 0x7E) || (0xA1 ≤ c && c ≤ 0xFF && c != 0xAD)

/-- The verb `%#U` of `fmt` on a rune below 256: `U+` and four upper-case
hexadecimal digits, then the quoted character when it is printable. -/
def formatSharpU (c : Nat) : Bytes :=
  lit "U+00" ++ [(lit "0123456789ABCDEF").getD (c >>> 4) 0,
    (lit "0123456789ABCDEF").getD (c &&& 0x0f) 0] ++
  (if isPrintLatin1 c then lit " '" ++ encodeRune c ++ lit "'" else [])

/-- The error `hex.InvalidByteError(c)`. -/
def hexInvalidByteError (c : Nat) : GoError :=
  .external (lit "encoding/hex: invalid byte: " ++ formatSharpU c)

/-- The error `hex.ErrLength`. -/
def hexErrLength : GoError := .external (lit "encoding/hex: odd length hex string")

/-- Go `hex.DecodeString`: the bytes decoded before the first problem, and the
error (an invalid digit, or an odd length) if there is one. -/
def hexDecodeString : Bytes → Bytes × Option GoError
  | [] => ([], none)
  | [p] => if reverseHex p > 0x0f then ([], some (hexInvalidByteError p)) else ([], some hexErrLength)
  | p :: q :: rest =>
    if reverseHex p > 0x0f then ([], some (hexInvalidByteError p))
    else if reverseHex q > 0x0f then ([], some (hexInvalidByteError q))
    else
      let r := hexDecodeString rest
      (((reverseHex p <<< 4) ||| reverseHex q) :: r.1, r.2)

/-! ## `generateFromMasterMnemonic` -/

/-- The string handed to the hash, lines 66-67:
`strings.ReplaceAll(strings.ToLower(fmt.Sprintf("%s ; %s %s", masterMnemonic, name, typeOfMnemonic)), " ", "")`. -/
def stringToHash (caseTable : Nat → Nat) (name typeOfMnemonic masterMnemonic : Bytes) : Bytes :=
  removeSpaces (stringsToLower caseTable
    (masterMnemonic ++ lit " ; " ++ name ++ lit " " ++ typeOfMnemonic))

/-- The hexadecimal digest string of lines 69-71. -/
def entropyHex (caseTable : Nat → Nat) (name typeOfMnemonic masterMnemonic : Bytes) : Bytes :=
  hexEncodeToString (sha256Sum (stringToHash caseTable name typeOfMnemonic masterMnemonic))

/-- The pair `entropy, err` of line 73: the hexadecimal digest string decoded again. -/
def entropy (caseTable : Nat → Nat) (name typeOfMnemonic masterMnemonic : Bytes) :
    Bytes × Option GoError :=
  hexDecodeString (entropyHex caseTable name typeOfMnemonic masterMnemonic)

/-- Go `generateFromMasterMnemonic`. The parameter `newMnemonic` is the external
`bip39.NewMnemonic`, `caseTable` the Unicode case tables. The result is the pair
the Go function returns: the child mnemonic (empty on failure) and the error. -/
def generateFromMasterMnemonic (caseTable : Nat → Nat)
    (newMnemonic : Bytes → Except GoError Bytes)
    (name typeOfMnemonic masterMnemonic : Bytes) : Bytes × Option GoError :=
  match entropy caseTable name typeOfMnemonic masterMnemonic with
  | (_, some err) => ([], some (.wrapped (lit "error decoding hex string: ") err))
  | (entropy, none) =>
    match newMnemonic entropy with
    | .error err => ([], some (.wrapped (lit "error generating mnemonic: ") err))
    | .ok mnemonic => (mnemonic, none)

/-! ## The orchestration: data, external routines, trace -/

/-- Go `MasterMnemonicSet`. A nil slice and an empty slice are both `[]`. -/
structure MasterMnemonicSet where
  ValidatorAddrMnemonic : Bytes := []
  ValidatorValMnemonic : Bytes := []
  SignerAddrMnemonic : Bytes := []
  ValidatorNodeMnemonic : Bytes := []
  ValidatorNodeId : Bytes := []
  PrivKeyMnemonic : Bytes := []
deriving DecidableEq, Repr

/-- The constant `DefaultValidatorNodeKeyFileName`. -/
def DefaultValidatorNodeKeyFileName : Bytes := lit "validator_node_key.json"

/-- The constant `DefaultPrivValidatorKeyFileName`. -/
def DefaultPrivValidatorKeyFileName : Bytes := lit "priv_validator_key.json"

/-- The constant `DefaultValidatorNodeIdFileName`. -/
def DefaultValidatorNodeIdFileName : Bytes := lit "validator_node_id.key"

/-- The constant `DefaultPrefix`. -/
def DefaultPrefix : Bytes := lit "kira"

/-- The constant `DefaultPath`. -/
def DefaultPath : Bytes := lit "44'/118'/0'/0/0"

/-- The pure routines of the packages the file imports, taken as parameters:
the Unicode case tables behind `unicode.ToLower`, `bip39.NewMnemonic`,
`valkeygen.CheckMnemonic`, and the node identifier that
`ed25519.GenPrivKeyFromSecret` followed by `p2p.NodeKey.ID` computes from the
bytes of a mnemonic. -/
structure Lib where
  caseTable : Nat → Nat
  newMnemonic : Bytes → Except GoError Bytes
  checkMnemonic : Bytes → Option GoError
  nodeID : Bytes → Bytes

/-- The arguments of one call of `valkeygen.ValKeyGen`. -/
structure ValKeyGenArgs where
  mnemonic : Bytes
  defaultPrefix : Bytes
  defaultPath : Bytes
  valkey : Bytes
  nodekey : Bytes
  keyid : Bytes
  acadr : Bool
  valadr : Bool
  consadr : Bool
deriving DecidableEq, Repr

/-- The routines that read or change the world outside the process (a state of
type `W`), taken as parameters: `valkeygen.CheckPath`, `valkeygen.ValKeyGen`,
`os.Create`, `(*os.File).WriteString` and `(*os.File).Close`; an open file is
named by the path it was created at. -/
structure Sys (W : Type) where
  checkPath : List Bytes → W → W × Bool × Option GoError
  valKeyGen : ValKeyGenArgs → W → W × Option GoError
  create : Bytes → W → W × Option GoError
  writeString : Bytes → Bytes → W → W × Option GoError
  close : Bytes → W → W

/-- One observable step of a run, with its outcome. -/
inductive Event where
  | checkMnemonic (mnemonic : Bytes) (err : Option GoError)
  | checkPath (paths : List Bytes) (ok : Bool) (err : Option GoError)
  | generate (name typeOfMnemonic masterMnemonic : Bytes) (result : Bytes × Option GoError)
  | valKeyGen (args : ValKeyGenArgs) (err : Option GoError)
  | create (path : Bytes) (err : Option GoError)
  | writeString (path data : Bytes) (err : Option GoError)
  | close (path : Bytes)
  | stderr (text : Bytes)
  | stdout (text : Bytes)
  | exit (code : Nat)
deriving DecidableEq, Repr

/-- The state a run is threaded through: the outside world and the trace of the
steps taken so far, oldest first. -/
structure State (W : Type) where
  world : W
  trace : List Event
deriving DecidableEq

/-- Record a step at the end of the trace. -/
def State.emit {W : Type} (s : State W) (e : Event) : State W :=
  { world := s.world, trace := s.trace ++ [e] }

/-- Replace the outside world. -/
def State.setWorld {W : Type} (s : State W) (w : W) : State W :=
  { world := w, trace := s.trace }

/-- How a call ends: it returns a value, or the process is ended by `os.Exit`. -/
inductive Outcome (α : Type) where
  | returned (value : α)
  | exited (code : Nat)
deriving DecidableEq, Repr

/-- The text `fmt.Fprintln(os.Stderr, err)` writes. -/
def fprintln (err : GoError) : Bytes := err.Error ++ [0x0A]

/-- The text `fmt.Println(ok, masterkeys)` writes. -/
def println (ok : Bool) (masterkeys : Bytes) : Bytes :=
  (if ok then lit "true" else lit "false") ++ lit " " ++ masterkeys ++ [0x0A]

/-- The result of `fmt.Sprintf("%s/%s", dir, file)`. -/
def joinPath (dir file : Bytes) : Bytes := dir ++ lit "/" ++ file

/-! ## The functions of `mnemonicGenerator.go` -/

/-- Go `generateNodeIdFromMnemonic`: a mnemonic the validator rejects ends the
process with status 1; otherwise the node identifier is computed from the bytes
of the mnemonic. -/
def generateNodeIdFromMnemonic {W : Type} (lib : Lib) (mnemonic : Bytes) (s : State W) :
    Outcome Bytes × State W :=
  match lib.checkMnemonic mnemonic with
  | some err =>
    (.exited 1,
      ((s.emit (.checkMnemonic mnemonic (some err))).emit (.stderr (fprintln err))).emit (.exit 1))
  | none => (.returned (lib.nodeID mnemonic), s.emit (.checkMnemonic mnemonic none))

/-- The text `fmt.Printf("Error creating %s file: %s", path, err)` writes. -/
def errorCreating (path : Bytes) (err : GoError) : Bytes :=
  lit "Error creating " ++ path ++ lit " file: " ++ err.Error

/-- Go `createMnemonicsFile`: create the file, write the data, and close the file
on the way out (the deferred `file.Close()`). -/
def createMnemonicsFile {W : Type} (sys : Sys W) (path mnemonicData : Bytes) (s : State W) :
    Option GoError × State W :=
  match sys.create path s.world with
  | (w1, some err) =>
    (some err, ((s.setWorld w1).emit (.create path (some err))).emit (.stdout (errorCreating path err)))
  | (w1, none) =>
    let s1 := (s.setWorld w1).emit (.create path none)
    match sys.writeString path mnemonicData w1 with
    | (w2, some err) =>
      let s2 := ((s1.setWorld w2).emit (.writeString path mnemonicData (some err))).emit
        (.stdout (errorCreating path err))
      (some err, (s2.setWorld (sys.close path w2)).emit (.close path))
    | (w2, none) =>
      let s2 := (s1.setWorld w2).emit (.writeString path mnemonicData none)
      (none, (s2.setWorld (sys.close path w2)).emit (.close path))

/-- A call of `valkeygen.ValKeyGen`, recorded in the trace. -/
def callValKeyGen {W : Type} (sys : Sys W) (args : ValKeyGenArgs) (s : State W) :
    Option GoError × State W :=
  match sys.valKeyGen args s.world with
  | (w, err) => (err, (s.setWorld w).emit (.valKeyGen args err))

/-- The argument list `(mnemonic, defaultPrefix, defaultPath, valkey, nodekey,
keyid, false, false, false)` of the three calls of `valkeygen.ValKeyGen`. -/
def writeArgs (mnemonic defaultPrefix defaultPath valkey nodekey keyid : Bytes) :
    ValKeyGenArgs :=
  { mnemonic := mnemonic, defaultPrefix := defaultPrefix, defaultPath := defaultPath,
    valkey := valkey, nodekey := nodekey, keyid := keyid,
    acadr := false, valadr := false, consadr := false }

/-- Go `GenerateValidatorNodeKeyJson`: the key path is passed as `nodekey`. -/
def GenerateValidatorNodeKeyJson {W : Type} (sys : Sys W)
    (validatorNodeMnemonic keyPath defaultPrefix defaultPath : Bytes) (s : State W) :
    Option GoError × State W :=
  callValKeyGen sys (writeArgs validatorNodeMnemonic defaultPrefix defaultPath [] keyPath []) s

/-- Go `GenerateValidatorNodeIdFile`: the key path is passed as `keyid`. -/
def GenerateValidatorNodeIdFile {W : Type} (sys : Sys W)
    (validatorNodeMnemonic keyPath defaultPrefix defaultPath : Bytes) (s : State W) :
    Option GoError × State W :=
  callValKeyGen sys (writeArgs validatorNodeMnemonic defaultPrefix defaultPath [] [] keyPath) s

/-- Go `GeneratePrivValidatorKeyJson`: the key path is passed as `valkey`. -/
def GeneratePrivValidatorKeyJson {W : Type} (sys : Sys W)
    (validatorValMnemonic keyPath defaultPrefix defaultPath : Bytes) (s : State W) :
    Option GoError × State W :=
  callValKeyGen sys (writeArgs validatorValMnemonic defaultPrefix defaultPath keyPath [] []) s

/-- A call of `generateFromMasterMnemonic`, recorded in the trace. -/
def callGenerate {W : Type} (lib : Lib) (name typeOfMnemonic masterMnemonic : Bytes)
    (s : State W) : (Bytes × Option GoError) × State W :=
  let r := generateFromMasterMnemonic lib.caseTable lib.newMnemonic name typeOfMnemonic
    masterMnemonic
  (r, s.emit (.generate name typeOfMnemonic masterMnemonic r))

/-- Go `DerivePrivKeyMnemonicFromMasterMnemonic`: the master mnemonic is checked
again, then the child mnemonic for the fixed label `priv`, `key` is derived; a
failing derivation is reported by a new error that drops the cause. -/
def DerivePrivKeyMnemonicFromMasterMnemonic {W : Type} (lib : Lib) (masterMnemonic : Bytes)
    (s : State W) : (Bytes × Option GoError) × State W :=
  match lib.checkMnemonic masterMnemonic with
  | some err => (([], some err), s.emit (.checkMnemonic masterMnemonic (some err)))
  | none =>
    match callGenerate lib (lit "priv") (lit "key") masterMnemonic
        (s.emit (.checkMnemonic masterMnemonic none)) with
    | ((_, some _), s1) => (([], some (.errorf (lit "error while generating "))), s1)
    | ((privKey, none), s1) => ((privKey, none), s1)

/-- The data of line 175, the content of `mnemonics.env`: the result of
`fmt.Sprintf` on the format string
`"MASTER_MNEMONIC=%s\nVALIDATOR_ADDR_MNEMONIC=%s\nVALIDATOR_NODE_MNEMONIC=%s\nVALIDATOR_NODE_ID=%s\nVALIDATOR_VAL_MNEMONIC=%s\nSIGNER_ADDR_MNEMONIC=%s\n "`. -/
def dataToWrite (masterMnemonic : Bytes) (mnemonicSet : MasterMnemonicSet) : Bytes :=
  lit "MASTER_MNEMONIC=" ++ masterMnemonic ++
  lit "\nVALIDATOR_ADDR_MNEMONIC=" ++ mnemonicSet.ValidatorAddrMnemonic ++
  lit "\nVALIDATOR_NODE_MNEMONIC=" ++ mnemonicSet.ValidatorNodeMnemonic ++
  lit "\nVALIDATOR_NODE_ID=" ++ mnemonicSet.ValidatorNodeId ++
  lit "\nVALIDATOR_VAL_MNEMONIC=" ++ mnemonicSet.ValidatorValMnemonic ++
  lit "\nSIGNER_ADDR_MNEMONIC=" ++ mnemonicSet.SignerAddrMnemonic ++
  lit "\n "

/-- Lines 150-184 of `MasterKeysGen`: the artifact emission for a non-empty
`masterkeys`, in the order node key, node identifier, validator key,
`mnemonics.env`; the first failing step returns its error with the set. -/
def emitArtifacts {W : Type} (sys : Sys W)
    (masterMnemonic defaultPrefix defaultPath masterkeys : Bytes)
    (mnemonicSet : MasterMnemonicSet) (s : State W) :
    Outcome (MasterMnemonicSet × Option GoError) × State W :=
  match GenerateValidatorNodeKeyJson sys mnemonicSet.ValidatorNodeMnemonic
      (joinPath masterkeys DefaultValidatorNodeKeyFileName) defaultPrefix defaultPath s with
  | (some err, s1) => (.returned (mnemonicSet, some err), s1)
  | (none, s1) =>
    match GenerateValidatorNodeIdFile sys mnemonicSet.ValidatorNodeMnemonic
        (joinPath masterkeys DefaultValidatorNodeIdFileName) defaultPrefix defaultPath s1 with
    | (some err, s2) => (.returned (mnemonicSet, some err), s2)
    | (none, s2) =>
      match GeneratePrivValidatorKeyJson sys mnemonicSet.ValidatorValMnemonic
          (joinPath masterkeys DefaultPrivValidatorKeyFileName) defaultPrefix defaultPath s2 with
      | (some err, s3) => (.returned (mnemonicSet, some err), s3)
      | (none, s3) =>
        match createMnemonicsFile sys (joinPath masterkeys (lit "mnemonics.env"))
            (dataToWrite masterMnemonic mnemonicSet) s3 with
        | (some err, s4) => (.returned (mnemonicSet, some err), s4.emit (.stderr (fprintln err)))
        | (none, s4) => (.returned (mnemonicSet, none), s4)

/-- Lines 112-148 of `MasterKeysGen`: the derivations, in the order
validator-node mnemonic, node identifier, validator-addr, validator-val,
signer-addr and priv-key mnemonic. Each result is stored in the set before its
error is looked at; a failing step returns the set as it stands. A result with
a nil error means that every step succeeded. -/
def deriveKeys {W : Type} (lib : Lib) (masterMnemonic : Bytes) (s : State W) :
    Outcome (MasterMnemonicSet × Option GoError) × State W :=
  let mnemonicSet : MasterMnemonicSet := {}
  match callGenerate lib (lit "validator") (lit "node") masterMnemonic s with
  | ((node, some err), s1) =>
    (.returned ({ mnemonicSet with ValidatorNodeMnemonic := node }, some err),
      s1.emit (.stderr (fprintln err)))
  | ((node, none), s1) =>
    let mnemonicSet := { mnemonicSet with ValidatorNodeMnemonic := node }
    match generateNodeIdFromMnemonic lib mnemonicSet.ValidatorNodeMnemonic s1 with
    | (.exited code, s2) => (.exited code, s2)
    | (.returned nodeId, s2) =>
      let mnemonicSet := { mnemonicSet with ValidatorNodeId := nodeId }
      match callGenerate lib (lit "validator") (lit "addr") masterMnemonic s2 with
      | ((addr, some err), s3) =>
        (.returned ({ mnemonicSet with ValidatorAddrMnemonic := addr }, some err),
          s3.emit (.stderr (fprintln err)))
      | ((addr, none), s3) =>
        let mnemonicSet := { mnemonicSet with ValidatorAddrMnemonic := addr }
        match callGenerate lib (lit "validator") (lit "val") masterMnemonic s3 with
        | ((val, some err), s4) =>
          (.returned ({ mnemonicSet with ValidatorValMnemonic := val }, some err),
            s4.emit (.stderr (fprintln err)))
        | ((val, none), s4) =>
          let mnemonicSet := { mnemonicSet with ValidatorValMnemonic := val }
          match callGenerate lib (lit "signer") (lit "addr") masterMnemonic s4 with
          | ((signer, some err), s5) =>
            (.returned ({ mnemonicSet with SignerAddrMnemonic := signer }, some err),
              s5.emit (.stderr (fprintln err)))
          | ((signer, none), s5) =>
            let mnemonicSet := { mnemonicSet with SignerAddrMnemonic := signer }
            match DerivePrivKeyMnemonicFromMasterMnemonic lib masterMnemonic s5 with
            | ((priv, some err), s6) =>
              (.returned ({ mnemonicSet with PrivKeyMnemonic := priv }, some err),
                s6.emit (.stderr (fprintln err)))
            | ((priv, none), s6) =>
              (.returned ({ mnemonicSet with PrivKeyMnemonic := priv }, none), s6)

/-- Go `MasterKeysGen`: validate the master mnemonic, check the path, and, when
the path check says `ok`, derive the keys and, for a non-empty `masterkeys`,
emit the artifacts. -/
def MasterKeysGen {W : Type} (lib : Lib) (sys : Sys W)
    (masterMnemonic defaultPrefix defaultPath masterkeys : Bytes) (s : State W) :
    Outcome (MasterMnemonicSet × Option GoError) × State W :=
  let mnemonicSet : MasterMnemonicSet := {}
  match lib.checkMnemonic masterMnemonic with
  | some err =>
    (.returned (mnemonicSet, some err),
      (s.emit (.checkMnemonic masterMnemonic (some err))).emit (.stderr (fprintln err)))
  | none =>
    let s1 := s.emit (.checkMnemonic masterMnemonic none)
    match sys.checkPath [masterkeys] s1.world with
    | (w, ok, some err) =>
      (.returned (mnemonicSet, some err),
        (((s1.setWorld w).emit (.checkPath [masterkeys] ok (some err))).emit
          (.stderr (fprintln err))).emit (.stdout (println ok masterkeys)))
    | (w, false, none) =>
      (.returned (mnemonicSet, none), (s1.setWorld w).emit (.checkPath [masterkeys] false none))
    | (w, true, none) =>
      match deriveKeys lib masterMnemonic
          ((s1.setWorld w).emit (.checkPath [masterkeys] true none)) with
      | (.exited code, s2) => (.exited code, s2)
      | (.returned (mnemonicSet, some err), s2) => (.returned (mnemonicSet, some err), s2)
      | (.returned (mnemonicSet, none), s2) =>
        if masterkeys ≠ [] then
          emitArtifacts sys masterMnemonic defaultPrefix defaultPath masterkeys mnemonicSet s2
        else (.returned (mnemonicSet, none), s2)

/-! ## Notions used to state the properties -/

/-- The maximal runs of bytes of `s` that are not separators, in order, where
`acc` is the run collected so far. -/
def fieldsAux (isSep : Nat → Bool) : Bytes → Bytes → List Bytes
  | acc, [] => if acc = [] then [] else [acc]
  | acc, c :: rest =>
    if isSep c then
      if acc = [] then fieldsAux isSep [] rest else acc :: fieldsAux isSep [] rest
    else fieldsAux isSep (acc ++ [c]) rest

/-- The words of a phrase: its maximal runs of bytes that are not separators. -/
def fieldsBy (isSep : Nat → Bool) (s : Bytes) : List Bytes := fieldsAux isSep [] s

/-- A space, a tab or a line break (line feed or carriage return). -/
def isWhitespace (c : Nat) : Bool := c = 0x20 || c = 0x09 || c = 0x0A || c = 0x0D

/-- The space character U+0020 alone. -/
def isSpace (c : Nat) : Bool := c = 0x20

/-- The child mnemonic and error that `generateFromMasterMnemonic` returns for a
role label, with the external routines of `lib`. -/
def derive (lib : Lib) (name typeOfMnemonic masterMnemonic : Bytes) : Bytes × Option GoError :=
  generateFromMasterMnemonic lib.caseTable lib.newMnemonic name typeOfMnemonic masterMnemonic

/-- The role labels that `MasterKeysGen` and
`DerivePrivKeyMnemonicFromMasterMnemonic` pass to `generateFromMasterMnemonic`,
in the order of the calls. -/
def orchestratedRoles : List (Bytes × Bytes) :=
  [(lit "validator", lit "node"), (lit "validator", lit "addr"), (lit "validator", lit "val"),
    (lit "signer", lit "addr"), (lit "priv", lit "key")]

/-- The number of derivations, in the order of `orchestratedRoles`, that succeed
before the first one that fails. -/
def leadingDerivations (lib : Lib) (masterMnemonic : Bytes) : Nat :=
  (orchestratedRoles.takeWhile
    (fun r => decide ((derive lib r.1 r.2 masterMnemonic).2 = none))).length

/-- The set as it stands when the first `k` derivations have succeeded and the
next one, if any, has failed: the fields of the successful derivations hold
their child mnemonics (the node identifier comes with the validator-node
mnemonic), the other fields are empty. -/
def setAfter (lib : Lib) (masterMnemonic : Bytes) (k : Nat) : MasterMnemonicSet :=
  { ValidatorNodeMnemonic :=
      if 1 ≤ k then (derive lib (lit "validator") (lit "node") masterMnemonic).1 else [],
    ValidatorNodeId :=
      if 1 ≤ k then lib.nodeID (derive lib (lit "validator") (lit "node") masterMnemonic).1
      else [],
    ValidatorAddrMnemonic :=
      if 2 ≤ k then (derive lib (lit "validator") (lit "addr") masterMnemonic).1 else [],
    ValidatorValMnemonic :=
      if 3 ≤ k then (derive lib (lit "validator") (lit "val") masterMnemonic).1 else [],
    SignerAddrMnemonic :=
      if 4 ≤ k then (derive lib (lit "signer") (lit "addr") masterMnemonic).1 else [],
    PrivKeyMnemonic :=
      if 5 ≤ k then (derive lib (lit "priv") (lit "key") masterMnemonic).1 else [] }

/-- What a write step asks of the outside world, without its outcome. -/
inductive Request where
  | valKeyGen (args : ValKeyGenArgs)
  | create (path : Bytes)
  | writeString (path data : Bytes)
deriving DecidableEq, Repr

/-- The request of a write step: a call of `ValKeyGen`, the creation of a file or
a write to it. Any other step has none. -/
def Event.request? : Event → Option Request
  | .valKeyGen args _ => some (.valKeyGen args)
  | .create path _ => some (.create path)
  | .writeString path data _ => some (.writeString path data)
  | _ => none

/-- The error a step ended with, if any. -/
def Event.error? : Event → Option GoError
  | .checkMnemonic _ err => err
  | .checkPath _ _ err => err
  | .generate _ _ _ result => result.2
  | .valKeyGen _ err => err
  | .create _ err => err
  | .writeString _ _ err => err
  | _ => none

/-- The write steps of a trace, in order. -/
def writeSteps (t : List Event) : List Event := t.filter (fun e => (e.request?).isSome)

/-- The calls of `generateFromMasterMnemonic` of a trace, as role labels, in order. -/
def derivations (t : List Event) : List (Bytes × Bytes) :=
  t.filterMap (fun e => match e with
    | .generate name typeOfMnemonic _ _ => some (name, typeOfMnemonic)
    | _ => none)

/-- The path checks of a trace. -/
def pathChecks (t : List Event) : List Event :=
  t.filter (fun e => match e with
    | .checkPath _ _ _ => true
    | _ => false)

/-- The world after one step has acted on it: a path check, a call of
`ValKeyGen`, the creation of a file, a write to it and its closing change the
world as the external routine says; any other step leaves it alone. -/
def Event.act {W : Type} (sys : Sys W) (w : W) : Event → W
  | .checkPath paths _ _ => (sys.checkPath paths w).1
  | .valKeyGen args _ => (sys.valKeyGen args w).1
  | .create path _ => (sys.create path w).1
  | .writeString path data _ => (sys.writeString path data w).1
  | .close path => sys.close path w
  | _ => w

/-- The outcome recorded with a step is the answer of the external routine in
the world `w`. Steps that do not consult the world record nothing about it. -/
def Event.answered {W : Type} (sys : Sys W) (w : W) : Event → Prop
  | .checkPath paths ok err => (sys.checkPath paths w).2 = (ok, err)
  | .valKeyGen args err => (sys.valKeyGen args w).2 = err
  | .create path err => (sys.create path w).2 = err
  | .writeString path data err => (sys.writeString path data w).2 = err
  | _ => True

/-- The world after the steps of a trace have acted on `w`, one after the other. -/
def worldAfter {W : Type} (sys : Sys W) : List Event → W → W
  | [], w => w
  | e :: t, w => worldAfter sys t (e.act sys w)

/-- A trace is faithful to the world it starts in: every step was answered in
the world that the steps before it had produced. -/
def faithful {W : Type} (sys : Sys W) : List Event → W → Prop
  | [], _ => True
  | e :: t, w => e.answered sys w ∧ faithful sys t (e.act sys w)

/-- The fixed order of the artifact emission for the directory `dir`: the node
key file and the node identifier file from the validator-node mnemonic, the
validator key file from the validator-val mnemonic, then `mnemonics.env`, created
and written. -/
def emissionOrder (nodeMnemonic valMnemonic defaultPrefix defaultPath dir data : Bytes) :
    List Request :=
  [.valKeyGen (writeArgs nodeMnemonic defaultPrefix defaultPath
      [] (dir ++ lit "/validator_node_key.json") []),
    .valKeyGen (writeArgs nodeMnemonic defaultPrefix defaultPath
      [] [] (dir ++ lit "/validator_node_id.key")),
    .valKeyGen (writeArgs valMnemonic defaultPrefix defaultPath
      (dir ++ lit "/priv_validator_key.json") [] []),
    .create (dir ++ lit "/mnemonics.env"),
    .writeString (dir ++ lit "/mnemonics.env") data]

/-- One line `KEY=VALUE` of the summary file, ended by a line break. -/
def envLine (key value : Bytes) : Bytes := key ++ lit "=" ++ value ++ [0x0A]

/-- The summary in the words of the specification: six `KEY=VALUE` lines in the
fixed order, each ended by a line break, and nothing else. -/
def summaryLines (masterMnemonic : Bytes) (mnemonicSet : MasterMnemonicSet) : Bytes :=
  envLine (lit "MASTER_MNEMONIC") masterMnemonic ++
  envLine (lit "VALIDATOR_ADDR_MNEMONIC") mnemonicSet.ValidatorAddrMnemonic ++
  envLine (lit "VALIDATOR_NODE_MNEMONIC") mnemonicSet.ValidatorNodeMnemonic ++
  envLine (lit "VALIDATOR_NODE_ID") mnemonicSet.ValidatorNodeId ++
  envLine (lit "VALIDATOR_VAL_MNEMONIC") mnemonicSet.ValidatorValMnemonic ++
  envLine (lit "SIGNER_ADDR_MNEMONIC") mnemonicSet.SignerAddrMnemonic

/-! ## Sample external routines, for concrete runs -/

/-- Sample pure routines: case tables that leave every non-ASCII rune alone, an
encoder that accepts exactly the 32-byte entropies and renders them in
hexadecimal, a validator that rejects exactly the empty phrase, and a node
identifier made of the first bytes of the mnemonic. -/
def sampleLib : Lib where
  caseTable := fun r => r
  newMnemonic := fun e =>
    if e.length = 32 then .ok (hexEncodeToString e)
    else .error (.external (lit "Entropy length must be [128, 256] and a multiple of 32"))
  checkMnemonic := fun m => if m = [] then some (.external (lit "Invalid mnemonic")) else none
  nodeID := fun m => m.take 40

/-- A file system in memory: the files, as pairs of path and content. -/
abbrev Files := List (Bytes × Bytes)

/-- A sample world in which every path passes the check and every write
succeeds: `ValKeyGen` stores the mnemonic under each path it is given. -/
def memSys : Sys Files where
  checkPath := fun _ w => (w, true, none)
  valKeyGen := fun a w =>
    ((if a.valkey = [] then [] else [(a.valkey, a.mnemonic)]) ++
      (if a.nodekey = [] then [] else [(a.nodekey, a.mnemonic)]) ++
      (if a.keyid = [] then [] else [(a.keyid, a.mnemonic)]) ++ w, none)
  create := fun p w => ((p, []) :: w, none)
  writeString := fun p d w => (w.map (fun f => if f.1 = p then (p, f.2 ++ d) else f), none)
  close := fun _ w => w

/-- The error of a write that is not permitted. -/
def permissionDenied : GoError := .external (lit "permission denied")

/-- A sample world whose output directory is read-only: every path passes the
check, every write fails. -/
def readOnlySys : Sys Files where
  checkPath := fun _ w => (w, true, none)
  valKeyGen := fun _ w => (w, some permissionDenied)
  create := fun _ w => (w, some permissionDenied)
  writeString := fun _ _ w => (w, some permissionDenied)
  close := fun _ w => w

/-- A sample world in which only the node identifier file cannot be written. -/
def nodeIdFailsSys : Sys Files where
  checkPath := fun _ w => (w, true, none)
  valKeyGen := fun a w =>
    if a.keyid = [] then memSys.valKeyGen a w else (w, some permissionDenied)
  create := memSys.create
  writeString := memSys.writeString
  close := memSys.close

/-- A sample world whose path check answers "not ok" without an error. -/
def notOkSys : Sys Files where
  checkPath := fun _ w => (w, false, none)
  valKeyGen := memSys.valKeyGen
  create := memSys.create
  writeString := memSys.writeString
  close := memSys.close

/-- A sample master mnemonic: the twelve-word BIP39 test phrase. -/
def sampleMaster : Bytes :=
  lit "abandon abandon abandon abandon abandon abandon abandon abandon abandon abandon abandon about"

/-- The sample master mnemonic with a tab, not a space, after its first word. -/
def sampleMasterTab : Bytes :=
  lit "abandon\tabandon abandon abandon abandon abandon abandon abandon abandon abandon abandon about"

/-- The sample master mnemonic without its spaces, as it is hashed. -/
def sampleHashed : Bytes :=
  lit "abandonabandonabandonabandonabandonabandonabandonabandonabandonabandonabandonabout"

/-- The hashed form of the sample master mnemonic with the tab. -/
def sampleHashedTab : Bytes :=
  lit "abandon\tabandonabandonabandonabandonabandonabandonabandonabandonabandonabandonabout"

/-- A sample output directory. -/
def sampleDir : Bytes := lit "/tmp/out"

/-- The start of a sample run: no file, nothing traced. -/
def sampleStart : State Files := { world := [], trace := [] }

/-- The set that the sample routines derive from the sample master mnemonic: each
child mnemonic is the hexadecimal SHA-256 digest of the hashed string, the
hashed master mnemonic followed by `;validatornode`, `;validatoraddr`,
`;validatorval`, `;signeraddr` or `;privkey`. -/
def sampleSet : MasterMnemonicSet :=
  { ValidatorAddrMnemonic :=
      lit "c46ab7575f1e0f44726ef6cba10fe8ecff4ffa94b5088d7ae4f206f9e65d67f1",
    ValidatorValMnemonic :=
      lit "d75570bd277483718b8f825c405dfa20a3ed162ad211dc3101b4761e467c3d60",
    SignerAddrMnemonic :=
      lit "58a39e3d1a63a16d8fbf6786d0b41f351cde58d4d3241211a4c49bddce2745b9",
    ValidatorNodeMnemonic :=
      lit "e6e592d4f7cc4edd7749132d247dbed956d48598e6ba75e8ca14a59b266d1085",
    ValidatorNodeId := lit "e6e592d4f7cc4edd7749132d247dbed956d48598",
    PrivKeyMnemonic :=
      lit "392a281bf96a40576708a79ea1aa7346ed25c6750390294d44fd05cde432d762" }

/-! ## The decoder and the rune loop across an ASCII byte -/

theorem runeSize_le (s0 : Nat) : 1 ≤ runeSize s0 ∧ runeSize s0 ≤ 4 := by
  unfold runeSize; split_ifs <;> omega

theorem runeSize_ascii (s0 : Nat) (h : s0 < 0x80) : runeSize s0 = 1 := by
  unfold runeSize; split_ifs <;> omega

theorem acceptLo_ge (s0 : Nat) : 0x80 ≤ acceptLo s0 := by
  unfold acceptLo; split_ifs <;> omega

theorem isCont_ascii (c : Nat) (h : c < 0x80) : isCont c = false := by
  simp [isCont]; omega

theorem decodeRuneAt_width_le (n s0 s1 s2 s3 : Nat) :
    (decodeRuneAt n s0 s1 s2 s3).2 ≤ n := by
  have h := runeSize_le s0
  unfold decodeRuneAt
  split_ifs <;> simp only [] <;> omega

theorem decodeRune_width_le (s : Bytes) : (decodeRune s).2 ≤ s.length :=
  decodeRuneAt_width_le _ _ _ _ _

/-- A string shorter than the announced size decodes to `(RuneError, 1)`. -/
theorem decodeRuneAt_short (n s0 s1 s2 s3 : Nat) (h1 : 1 ≤ n) (h : n < runeSize s0) :
    decodeRuneAt n s0 s1 s2 s3 = (RuneError, 1) := by
  have hs : ¬ s0 < 0x80 := fun hlt => by rw [runeSize_ascii s0 hlt] at h; omega
  unfold decodeRuneAt
  rw [if_neg (by omega), if_neg hs]
  split_ifs <;> rfl

/-- An ASCII byte in second place ends the rune with `(RuneError, 1)`. -/
theorem decodeRuneAt_bad1 (n s0 s1 s2 s3 : Nat) (h1 : 1 ≤ n) (hs : 1 < runeSize s0)
    (hc : s1 < 0x80) : decodeRuneAt n s0 s1 s2 s3 = (RuneError, 1) := by
  have hs0 : ¬ s0 < 0x80 := fun hlt => by rw [runeSize_ascii s0 hlt] at hs; omega
  have hlo := acceptLo_ge s0
  unfold decodeRuneAt
  rw [if_neg (by omega), if_neg hs0, if_neg (by omega)]
  split_ifs <;> first | rfl | omega

/-- An ASCII byte in third place ends a rune of size above 2 with `(RuneError, 1)`. -/
theorem decodeRuneAt_bad2 (n s0 s1 s2 s3 : Nat) (h1 : 1 ≤ n) (hs : 2 < runeSize s0)
    (hc : s2 < 0x80) : decodeRuneAt n s0 s1 s2 s3 = (RuneError, 1) := by
  have hs0 : ¬ s0 < 0x80 := fun hlt => by rw [runeSize_ascii s0 hlt] at hs; omega
  have hcont := isCont_ascii s2 hc
  unfold decodeRuneAt
  rw [if_neg (by omega), if_neg hs0, if_neg (by omega)]
  split_ifs <;> first | rfl | omega

/-- An ASCII byte in fourth place ends a rune of size 4 with `(RuneError, 1)`. -/
theorem decodeRuneAt_bad3 (n s0 s1 s2 s3 : Nat) (h1 : 1 ≤ n) (hs : 3 < runeSize s0)
    (hc : s3 < 0x80) : decodeRuneAt n s0 s1 s2 s3 = (RuneError, 1) := by
  have hs0 : ¬ s0 < 0x80 := fun hlt => by rw [runeSize_ascii s0 hlt] at hs; omega
  have hcont := isCont_ascii s3 hc
  unfold decodeRuneAt
  rw [if_neg (by omega), if_neg hs0, if_neg (by omega)]
  split_ifs <;> first | rfl | omega

/-- Only the bytes below the announced size, and whether the length reaches it,
matter to the decoder. -/
theorem decodeRuneAt_congr (n m s0 s1 s2 s3 t1 t2 t3 : Nat)
    (hn : runeSize s0 ≤ n) (hm : runeSize s0 ≤ m)
    (e1 : 1 < runeSize s0 → s1 = t1) (e2 : 2 < runeSize s0 → s2 = t2)
    (e3 : 3 < runeSize s0 → s3 = t3) :
    decodeRuneAt n s0 s1 s2 s3 = decodeRuneAt m s0 t1 t2 t3 := by
  have h := runeSize_le s0
  unfold decodeRuneAt
  rw [if_neg (by omega), if_neg (by omega : ¬ m < 1)]
  by_cases hs0 : s0 < 0x80
  · rw [if_pos hs0, if_pos hs0]
  · rw [if_neg hs0, if_neg hs0]
    by_cases hs1 : runeSize s0 = 1
    · rw [if_pos hs1, if_pos hs1]
    · rw [if_neg hs1, if_neg hs1, if_neg (by omega), if_neg (by omega : ¬ m < runeSize s0)]
      rw [← e1 (by omega)]
      by_cases hs2 : runeSize s0 ≤ 2
      · simp only [if_pos hs2]
      · simp only [if_neg hs2]
        rw [← e2 (by omega)]
        by_cases hs3 : runeSize s0 ≤ 3
        · simp only [if_pos hs3]
        · simp only [if_neg hs3]
          rw [← e3 (by omega)]

theorem getD_append_ascii_left (a b : Bytes) (c i : Nat) (hi : i < a.length) :
    (a ++ c :: b).getD i 0 = a.getD i 0 := by
  simp [List.getD_eq_getElem?_getD, List.getElem?_append_left hi]

theorem getD_append_ascii_at (a b : Bytes) (c : Nat) :
    (a ++ c :: b).getD a.length 0 = c := by
  simp [List.getD_eq_getElem?_getD, List.getElem?_append_right (Nat.le_refl _)]

theorem decodeRune_append_ascii (a b : Bytes) (c : Nat) (ha : a ≠ []) (hc : c < 0x80) :
    decodeRune (a ++ c :: b) = decodeRune a := by
  have hlen : 1 ≤ a.length := by
    cases a with
    | nil => exact absurd rfl ha
    | cons x xs => simp
  have hsz := runeSize_le (a.getD 0 0)
  have hat := getD_append_ascii_at a b c
  have hl : (a ++ c :: b).length = a.length + (b.length + 1) := by simp
  unfold decodeRune
  rw [getD_append_ascii_left a b c 0 (by omega), hl]
  by_cases hfull : runeSize (a.getD 0 0) ≤ a.length
  · exact decodeRuneAt_congr _ _ _ _ _ _ _ _ _ (by omega) hfull
      (fun h => getD_append_ascii_left a b c 1 (by omega))
      (fun h => getD_append_ascii_left a b c 2 (by omega))
      (fun h => getD_append_ascii_left a b c 3 (by omega))
  · rw [decodeRuneAt_short a.length _ _ _ _ hlen (by omega)]
    rcases Nat.lt_or_ge a.length 2 with h2 | h2
    · have e1 : a.length = 1 := by omega
      rw [e1] at hat
      exact decodeRuneAt_bad1 _ _ _ _ _ (by omega) (by omega) (by rw [hat]; exact hc)
    · rcases Nat.lt_or_ge a.length 3 with h3 | h3
      · have e2 : a.length = 2 := by omega
        rw [e2] at hat
        exact decodeRuneAt_bad2 _ _ _ _ _ (by omega) (by omega) (by rw [hat]; exact hc)
      · have e3 : a.length = 3 := by omega
        rw [e3] at hat
        exact decodeRuneAt_bad3 _ _ _ _ _ (by omega) (by omega) (by rw [hat]; exact hc)

theorem mapRunesAux_nil (f : Nat → Nat) (k : Nat) : mapRunesAux f k [] = [] := by
  cases k <;> rfl

theorem mapRunesAux_succ_cons (f : Nat → Nat) (k x : Nat) (xs : Bytes) :
    mapRunesAux f (k + 1) (x :: xs) = mapRunesAux f k xs := rfl

theorem mapRunesAux_zero_cons (f : Nat → Nat) (x : Nat) (xs : Bytes) :
    mapRunesAux f 0 (x :: xs) =
      encodeRune (f (decodeRune (x :: xs)).1) ++
        mapRunesAux f ((decodeRune (x :: xs)).2 - 1) xs := rfl

theorem decodeRune_ascii (c : Nat) (b : Bytes) (hc : c < 0x80) : decodeRune (c :: b) = (c, 1) := by
  unfold decodeRune decodeRuneAt
  simp [hc]

theorem mapRunesAux_append_ascii (f : Nat → Nat) (b : Bytes) (c : Nat) (hc : c < 0x80) :
    ∀ (a : Bytes) (k : Nat), k ≤ a.length →
      mapRunesAux f k (a ++ c :: b) = mapRunesAux f k a ++ (encodeRune (f c) ++ mapRunesAux f 0 b) := by
  intro a
  induction a with
  | nil =>
    intro k hk
    have hk0 : k = 0 := by simpa using hk
    subst hk0
    rw [List.nil_append, mapRunesAux_zero_cons, decodeRune_ascii c b hc, mapRunesAux_nil]
    rfl
  | cons x xs ih =>
    intro k hk
    cases k with
    | succ k =>
      rw [List.cons_append, mapRunesAux_succ_cons, mapRunesAux_succ_cons]
      exact ih k (by simpa using hk)
    | zero =>
      have hd := decodeRune_append_ascii (x :: xs) b c (by simp) hc
      have hw := decodeRune_width_le (x :: xs)
      rw [List.cons_append] at hd
      rw [List.cons_append, mapRunesAux_zero_cons, mapRunesAux_zero_cons, hd,
        ih _ (by simp at hw; omega), List.append_assoc]

theorem stringsMap_append_ascii (f : Nat → Nat) (a b : Bytes) (c : Nat) (hc : c < 0x80) :
    stringsMap f (a ++ c :: b) = stringsMap f a ++ (encodeRune (f c) ++ stringsMap f b) :=
  mapRunesAux_append_ascii f b c hc a 0 (Nat.zero_le _)

/-! ## `strings.ToLower` and the hashed string -/

/-- The ASCII lower-casing of one byte. -/
theorem unicodeToLower_ascii (tbl : Nat → Nat) (c : Nat) (hc : c < 0x80) :
    unicodeToLower tbl c = (if 0x41 ≤ c ∧ c ≤ 0x5A then c + (0x61 - 0x41) else c) ∧
      unicodeToLower tbl c < 0x80 := by
  unfold unicodeToLower
  rw [if_pos (by omega)]
  refine ⟨rfl, ?_⟩
  split_ifs <;> omega

theorem encodeRune_ascii (r : Nat) (h : r < 0x80) : encodeRune r = [r] := by
  unfold encodeRune
  rw [if_pos (by omega)]

theorem stringsMap_ascii (tbl : Nat → Nat) (s : Bytes) (h : ∀ c ∈ s, c < 0x80) :
    stringsMap (unicodeToLower tbl) s =
      s.map (fun c => if 0x41 ≤ c ∧ c ≤ 0x5A then c + (0x61 - 0x41) else c) := by
  induction s with
  | nil => rfl
  | cons x xs ih =>
    have hx : x < 0x80 := h x (by simp)
    have hl := unicodeToLower_ascii tbl x hx
    unfold stringsMap at ih ⊢
    rw [mapRunesAux_zero_cons, decodeRune_ascii x xs hx, encodeRune_ascii _ hl.2, hl.1]
    simp only [List.map_cons, List.singleton_append, Nat.sub_self]
    rw [ih (fun c hc => h c (by simp [hc]))]

theorem map_lower_noUpper (s : Bytes) (h : ∀ c ∈ s, ¬ (0x41 ≤ c ∧ c ≤ 0x5A)) :
    s.map (fun c => if 0x41 ≤ c ∧ c ≤ 0x5A then c + (0x61 - 0x41) else c) = s := by
  induction s with
  | nil => rfl
  | cons x xs ih =>
    rw [List.map_cons, if_neg (h x (by simp)), ih (fun c hc => h c (by simp [hc]))]

/-- The ASCII fast path of `strings.ToLower` computes the same string as the rune loop. -/
theorem stringsToLower_eq_stringsMap (tbl : Nat → Nat) (s : Bytes) :
    stringsToLower tbl s = stringsMap (unicodeToLower tbl) s := by
  unfold stringsToLower
  split_ifs with h1 h2
  · rw [stringsMap_ascii tbl s (by simpa using h1)]
  · rw [stringsMap_ascii tbl s (by simpa using h1), map_lower_noUpper s (by simpa using h2)]
  · rfl

theorem stringsToLower_append_ascii (tbl : Nat → Nat) (a b : Bytes) (c : Nat) (hc : c < 0x80) :
    stringsToLower tbl (a ++ c :: b) =
      stringsToLower tbl a ++ (unicodeToLower tbl c :: stringsToLower tbl b) := by
  simp only [stringsToLower_eq_stringsMap]
  rw [stringsMap_append_ascii _ _ _ _ hc, encodeRune_ascii _ (unicodeToLower_ascii tbl c hc).2]
  rfl

theorem removeSpaces_append (a b : Bytes) :
    removeSpaces (a ++ b) = removeSpaces a ++ removeSpaces b := by
  simp [removeSpaces]

/-- The hashed string splits along the separators of the format string: the
lower-cased, space-free master mnemonic, a semicolon, and the lower-cased,
space-free name and type, one after the other. -/
theorem stringToHash_eq (tbl : Nat → Nat) (name typ master : Bytes) :
    stringToHash tbl name typ master =
      removeSpaces (stringsToLower tbl master) ++ 0x3B ::
        (removeSpaces (stringsToLower tbl name) ++ removeSpaces (stringsToLower tbl typ)) := by
  have e : master ++ lit " ; " ++ name ++ lit " " ++ typ =
      master ++ 0x20 :: ([] ++ 0x3B :: ([] ++ 0x20 :: (name ++ 0x20 :: typ))) := by
    simp [lit]
  unfold stringToHash
  rw [e, stringsToLower_append_ascii _ _ _ _ (by omega), stringsToLower_append_ascii _ _ _ _ (by omega),
    stringsToLower_append_ascii _ _ _ _ (by omega), stringsToLower_append_ascii _ _ _ _ (by omega)]
  simp [removeSpaces, unicodeToLower, stringsToLower]

/-! ## The digest and its hexadecimal rendering -/

theorem putBE_length (n x : Nat) : (putBE n x).length = n := by
  induction n with
  | zero => rfl
  | succ n ih => simp [putBE, ih]

theorem putBE_lt (n x : Nat) : ∀ b ∈ putBE n x, b < 256 := by
  induction n with
  | zero => simp [putBE]
  | succ n ih =>
    intro b hb
    simp only [putBE, List.mem_cons] at hb
    rcases hb with rfl | hb
    · exact Nat.mod_lt _ (by decide)
    · exact ih b hb

/-- The digest has 32 bytes. -/
theorem sha256Sum_length (data : Bytes) : (sha256Sum data).length = 32 := by
  simp [sha256Sum, putBE_length]

theorem sha256Sum_lt (data : Bytes) : ∀ b ∈ sha256Sum data, b < 256 := by
  intro b hb
  simp only [sha256Sum, List.mem_append] at hb
  rcases hb with ((((((hb | hb) | hb) | hb) | hb) | hb) | hb) | hb <;> exact putBE_lt _ _ b hb

theorem reverseHex_hextable : ∀ d, d < 16 → reverseHex (hextable.getD d 0) = d := by
  decide

set_option maxRecDepth 100000 in
theorem nibbles_join : ∀ v, v < 256 → ((v >>> 4) <<< 4) ||| (v &&& 0x0f) = v := by
  decide

theorem nibble_hi_lt (v : Nat) (h : v < 256) : v >>> 4 < 16 := by
  rw [Nat.shiftRight_eq_div_pow]; omega

theorem nibble_lo_lt (v : Nat) : v &&& 0x0f < 16 := by
  have := @Nat.and_le_right v 0x0f
  omega

/-- Decoding the hexadecimal rendering of a byte string gives the string back, without error. -/
theorem hexDecodeString_hexEncodeToString (bs : Bytes) (h : ∀ b ∈ bs, b < 256) :
    hexDecodeString (hexEncodeToString bs) = (bs, none) := by
  induction bs with
  | nil => rfl
  | cons v rest ih =>
    have hv : v < 256 := h v (by simp)
    have e1 := reverseHex_hextable _ (nibble_hi_lt v hv)
    have e2 := reverseHex_hextable _ (nibble_lo_lt v)
    have l1 := nibble_hi_lt v hv
    have l2 := nibble_lo_lt v
    rw [hexEncodeToString, hexDecodeString, e1, e2, if_neg (by omega), if_neg (by omega),
      ih (fun b hb => h b (by simp [hb])), nibbles_join v hv]

theorem hexEncodeToString_length (bs : Bytes) : (hexEncodeToString bs).length = 2 * bs.length := by
  induction bs with
  | nil => rfl
  | cons v rest ih => simp [hexEncodeToString, ih]; omega

/-- The entropy of lines 69-73: the decoded hexadecimal digest is the digest. -/
theorem hexDecodeString_entropyHex (tbl : Nat → Nat) (name typ master : Bytes) :
    hexDecodeString (entropyHex tbl name typ master) =
      (sha256Sum (stringToHash tbl name typ master), none) :=
  hexDecodeString_hexEncodeToString _ (sha256Sum_lt _)

theorem generateFromMasterMnemonic_eq (tbl : Nat → Nat) (enc : Bytes → Except GoError Bytes)
    (name typ master : Bytes) :
    generateFromMasterMnemonic tbl enc name typ master =
      (match enc (sha256Sum (stringToHash tbl name typ master)) with
        | .error err => ([], some (.wrapped (lit "error generating mnemonic: ") err))
        | .ok mnemonic => (mnemonic, none)) := by
  unfold generateFromMasterMnemonic entropy
  simp only [hexDecodeString_entropyHex]

/-! ## Known answers -/

set_option maxRecDepth 1000000 in
/-- The digest of `abc`, the first known answer of FIPS 180-2 for SHA-256. -/
theorem sha256Sum_abc :
    hexEncodeToString (sha256Sum (lit "abc")) =
      lit "ba7816bf8f01cfea414140de5dae2223b00361a396177a9cb410ff61f20015ad" := by
  decide

set_option maxRecDepth 1000000 in
/-- The digest of the empty message. -/
theorem sha256Sum_nil :
    hexEncodeToString (sha256Sum []) =
      lit "e3b0c44298fc1c149afbf4c8996fb92427ae41e4649b934ca495991b7852b855" := by
  decide

/-- The decoder on a three-byte rune, on an encoded surrogate and on a truncated rune. -/
theorem decodeRune_known :
    decodeRune [0xE2, 0x82, 0xAC] = (0x20AC, 3) ∧
      decodeRune [0xED, 0xA0, 0x80] = (RuneError, 1) ∧
      decodeRune [0xE2, 0x82] = (RuneError, 1) ∧
      decodeRune [0xF0, 0x9F, 0x98, 0x80, 0x41] = (0x1F600, 4) := by
  decide

/-- Lower-casing maps an invalid byte to the encoding of `RuneError` and lowers
ASCII letters next to non-ASCII runes. -/
theorem stringsToLower_known :
    stringsToLower (fun r => r) [0xC3, 0x20, 0xA9, 0x41] =
        [0xEF, 0xBF, 0xBD, 0x20, 0xEF, 0xBF, 0xBD, 0x61] ∧
      stringsToLower (fun r => r) [0xC3, 0xA9, 0x41] = [0xC3, 0xA9, 0x61] ∧
      stringsToLower (fun r => r) (lit "Abandon ART") = lit "abandon art" := by
  decide

/-! ## The steps of a run -/

theorem callGenerate_eq {W : Type} (lib : Lib) (name typ master : Bytes) (s : State W) :
    callGenerate lib name typ master s =
      (derive lib name typ master, s.emit (.generate name typ master (derive lib name typ master))) :=
  rfl

theorem derive_eq (lib : Lib) (name typ master : Bytes) :
    derive lib name typ master =
      (match lib.newMnemonic (sha256Sum (stringToHash lib.caseTable name typ master)) with
        | .error err => ([], some (.wrapped (lit "error generating mnemonic: ") err))
        | .ok mnemonic => (mnemonic, none)) := by
  unfold derive
  exact generateFromMasterMnemonic_eq _ _ _ _ _

/-- A failing derivation returns the empty slice. -/
theorem derive_fst_of_error (lib : Lib) (name typ master : Bytes) (e : GoError)
    (h : (derive lib name typ master).2 = some e) : (derive lib name typ master).1 = [] := by
  rw [derive_eq] at h ⊢
  cases hc : lib.newMnemonic (sha256Sum (stringToHash lib.caseTable name typ master)) with
  | error err => rfl
  | ok w => rw [hc] at h; cases h

@[simp] theorem State.emit_world {W : Type} (s : State W) (e : Event) : (s.emit e).world = s.world := rfl

@[simp] theorem State.emit_trace {W : Type} (s : State W) (e : Event) :
    (s.emit e).trace = s.trace ++ [e] := rfl

@[simp] theorem State.setWorld_world {W : Type} (s : State W) (w : W) : (s.setWorld w).world = w := rfl

@[simp] theorem State.setWorld_trace {W : Type} (s : State W) (w : W) :
    (s.setWorld w).trace = s.trace := rfl

theorem worldAfter_append {W : Type} (sys : Sys W) (a b : List Event) (w : W) :
    worldAfter sys (a ++ b) w = worldAfter sys b (worldAfter sys a w) := by
  induction a generalizing w with
  | nil => rfl
  | cons e t ih => exact ih _

theorem faithful_append {W : Type} (sys : Sys W) (a b : List Event) (w : W) :
    faithful sys (a ++ b) w ↔ faithful sys a w ∧ faithful sys b (worldAfter sys a w) := by
  induction a generalizing w with
  | nil => simp [faithful, worldAfter]
  | cons e t ih =>
    show _ ∧ faithful sys (t ++ b) _ ↔
      (_ ∧ faithful sys t _) ∧ faithful sys b (worldAfter sys t _)
    rw [ih, and_assoc]

/-- The derivation phase, step by step: it leaves the world alone, writes and
checks no path, runs the derivations in the order of `orchestratedRoles` up to
and including the first that fails, and returns the set as it stands. -/
theorem deriveKeys_spec {W : Type} (lib : Lib) (m : Bytes) (s : State W)
    (hm : lib.checkMnemonic m = none) :
    ∃ evs, (deriveKeys lib m s).2 = { world := s.world, trace := s.trace ++ evs } ∧
      writeSteps evs = [] ∧ pathChecks evs = [] ∧
      (derivations evs).length ≤ leadingDerivations lib m + 1 ∧
      derivations evs <+: orchestratedRoles ∧
      (∀ set e, (deriveKeys lib m s).1 = .returned (set, some e) →
        set = setAfter lib m (leadingDerivations lib m) ∧ leadingDerivations lib m < 5) ∧
      (∀ set, (deriveKeys lib m s).1 = .returned (set, none) →
        set = setAfter lib m 5 ∧ leadingDerivations lib m = 5 ∧
          lib.checkMnemonic set.ValidatorNodeMnemonic = none) ∧
      (∀ code, (deriveKeys lib m s).1 = .exited code →
        code = 1 ∧ 1 ≤ leadingDerivations lib m ∧
          lib.checkMnemonic (derive lib (lit "validator") (lit "node") m).1 ≠ none) ∧
      (∀ (sys : Sys W) (w : W), worldAfter sys evs w = w ∧ faithful sys evs w) := by
  refine ⟨(deriveKeys lib m s).2.trace.drop s.trace.length, ?_⟩
  have hE : ∀ n t e, (derive lib n t m).2 = some e → (derive lib n t m).1 = [] :=
    fun n t e => derive_fst_of_error lib n t m e
  unfold deriveKeys DerivePrivKeyMnemonicFromMasterMnemonic callGenerate leadingDerivations setAfter
    orchestratedRoles
  unfold derive at *
  generalize generateFromMasterMnemonic lib.caseTable lib.newMnemonic = gen at *
  rcases h1 : gen (lit "validator") (lit "node") m with ⟨v1, _ | e1⟩
  · rcases hn : lib.checkMnemonic v1 with _ | en
    · rcases h2 : gen (lit "validator") (lit "addr") m with ⟨v2, _ | e2⟩
      · rcases h3 : gen (lit "validator") (lit "val") m with ⟨v3, _ | e3⟩
        · rcases h4 : gen (lit "signer") (lit "addr") m with ⟨v4, _ | e4⟩
          · rcases h5 : gen (lit "priv") (lit "key") m with ⟨v5, _ | e5⟩
            · simp [h1, h2, h3, h4, h5, hm, generateNodeIdFromMnemonic, hn, State.emit,
                writeSteps, pathChecks, derivations, Event.request?, List.takeWhile, worldAfter, faithful,
              Event.act, Event.answered]
            · have hv : v5 = [] := by
                have := hE _ _ e5 (by rw [h5])
                simpa [h5] using this
              subst hv
              simp [h1, h2, h3, h4, h5, hm, generateNodeIdFromMnemonic, hn, State.emit,
                writeSteps, pathChecks, derivations, Event.request?, List.takeWhile, worldAfter, faithful,
              Event.act, Event.answered]
          · have hv : v4 = [] := by
              have := hE _ _ e4 (by rw [h4])
              simpa [h4] using this
            subst hv
            simp [h1, h2, h3, h4, hm, generateNodeIdFromMnemonic, hn, State.emit,
              writeSteps, pathChecks, derivations, Event.request?, List.takeWhile, worldAfter, faithful,
              Event.act, Event.answered]
        · have hv : v3 = [] := by
            have := hE _ _ e3 (by rw [h3])
            simpa [h3] using this
          subst hv
          simp [h1, h2, h3, hm, generateNodeIdFromMnemonic, hn, State.emit,
            writeSteps, pathChecks, derivations, Event.request?, List.takeWhile, worldAfter, faithful,
              Event.act, Event.answered]
      · have hv : v2 = [] := by
          have := hE _ _ e2 (by rw [h2])
          simpa [h2] using this
        subst hv
        simp [h1, h2, hm, generateNodeIdFromMnemonic, hn, State.emit,
            writeSteps, pathChecks, derivations, Event.request?, List.takeWhile, worldAfter, faithful,
              Event.act, Event.answered]
    · simp [h1, hm, generateNodeIdFromMnemonic, hn, State.emit,
        writeSteps, pathChecks, derivations, Event.request?, List.takeWhile, worldAfter, faithful,
              Event.act, Event.answered]
  · have hv : v1 = [] := by
      have := hE _ _ e1 (by rw [h1])
      simpa [h1] using this
    subst hv
    simp [h1, State.emit, writeSteps, pathChecks, derivations,
        Event.request?, List.takeWhile, worldAfter, faithful,
              Event.act, Event.answered]

theorem joinPath_nodeKey (dir : Bytes) :
    joinPath dir DefaultValidatorNodeKeyFileName = dir ++ lit "/validator_node_key.json" := by
  unfold joinPath
  rw [List.append_assoc]
  rfl

theorem joinPath_nodeId (dir : Bytes) :
    joinPath dir DefaultValidatorNodeIdFileName = dir ++ lit "/validator_node_id.key" := by
  unfold joinPath
  rw [List.append_assoc]
  rfl

theorem joinPath_privValidator (dir : Bytes) :
    joinPath dir DefaultPrivValidatorKeyFileName = dir ++ lit "/priv_validator_key.json" := by
  unfold joinPath
  rw [List.append_assoc]
  rfl

theorem joinPath_mnemonicsEnv (dir : Bytes) :
    joinPath dir (lit "mnemonics.env") = dir ++ lit "/mnemonics.env" := by
  unfold joinPath
  rw [List.append_assoc]
  rfl

theorem writeArgs_inj (a b c d e f a' b' c' d' e' f' : Bytes) :
    writeArgs a b c d e f = writeArgs a' b' c' d' e' f' ↔
      a = a' ∧ b = b' ∧ c = c' ∧ d = d' ∧ e = e' ∧ f = f' := by
  simp [writeArgs]

theorem lit_nodeKey_ne_nil : lit "/validator_node_key.json" = [] ↔ False := by decide

theorem lit_nodeId_ne_nil : lit "/validator_node_id.key" = [] ↔ False := by decide

theorem lit_privValidator_ne_nil : lit "/priv_validator_key.json" = [] ↔ False := by decide

/-- The emission phase, step by step: its write steps are the first `k` requests
of the fixed order, every one but the last succeeded, and the error returned is
the outcome of the last one, which failed unless all five were made. -/
theorem emitArtifacts_spec {W : Type} (sys : Sys W) (m p d dir : Bytes)
    (set : MasterMnemonicSet) (s : State W) :
    ∃ evs k, 1 ≤ k ∧ k ≤ 5 ∧
      (emitArtifacts sys m p d dir set s).2.trace = s.trace ++ evs ∧
      derivations evs = [] ∧ pathChecks evs = [] ∧
      (writeSteps evs).filterMap Event.request? =
        (emissionOrder set.ValidatorNodeMnemonic set.ValidatorValMnemonic p d dir
          (dataToWrite m set)).take k ∧
      (∀ ev ∈ (writeSteps evs).dropLast, ev.error? = none) ∧
      (emitArtifacts sys m p d dir set s).1 =
        .returned (set, ((writeSteps evs).getLast?).bind Event.error?) ∧
      (k < 5 → ((writeSteps evs).getLast?).bind Event.error? ≠ none) ∧
      (((writeSteps evs).getLast?).bind Event.error? = none →
        evs =
          [.valKeyGen (writeArgs set.ValidatorNodeMnemonic p d []
              (dir ++ lit "/validator_node_key.json") []) none,
            .valKeyGen (writeArgs set.ValidatorNodeMnemonic p d [] []
              (dir ++ lit "/validator_node_id.key")) none,
            .valKeyGen (writeArgs set.ValidatorValMnemonic p d
              (dir ++ lit "/priv_validator_key.json") [] []) none,
            .create (dir ++ lit "/mnemonics.env") none,
            .writeString (dir ++ lit "/mnemonics.env") (dataToWrite m set) none,
            .close (dir ++ lit "/mnemonics.env")]) ∧
      (∀ e, Event.valKeyGen (writeArgs set.ValidatorNodeMnemonic p d [] []
            (dir ++ lit "/validator_node_id.key")) (some e) ∈ evs →
        writeSteps evs =
          [.valKeyGen (writeArgs set.ValidatorNodeMnemonic p d []
              (dir ++ lit "/validator_node_key.json") []) none,
            .valKeyGen (writeArgs set.ValidatorNodeMnemonic p d [] []
              (dir ++ lit "/validator_node_id.key")) (some e)]) ∧
      faithful sys evs s.world ∧
      (emitArtifacts sys m p d dir set s).2.world = worldAfter sys evs s.world ∧
      (∀ e, Event.valKeyGen (writeArgs set.ValidatorNodeMnemonic p d [] []
            (dir ++ lit "/validator_node_id.key")) (some e) ∈ evs →
        (sys.valKeyGen (writeArgs set.ValidatorNodeMnemonic p d []
            (dir ++ lit "/validator_node_key.json") []) s.world).2 = none ∧
        (sys.valKeyGen (writeArgs set.ValidatorNodeMnemonic p d [] []
            (dir ++ lit "/validator_node_id.key"))
          (sys.valKeyGen (writeArgs set.ValidatorNodeMnemonic p d []
            (dir ++ lit "/validator_node_key.json") []) s.world).1) =
          ((emitArtifacts sys m p d dir set s).2.world, some e)) := by
  refine ⟨(emitArtifacts sys m p d dir set s).2.trace.drop s.trace.length, ?_⟩
  unfold emitArtifacts GenerateValidatorNodeKeyJson GenerateValidatorNodeIdFile
    GeneratePrivValidatorKeyJson callValKeyGen createMnemonicsFile emissionOrder
  rw [joinPath_nodeKey, joinPath_nodeId, joinPath_privValidator, joinPath_mnemonicsEnv]
  rcases h1 : sys.valKeyGen (writeArgs set.ValidatorNodeMnemonic p d []
      (dir ++ lit "/validator_node_key.json") []) s.world with ⟨w1, _ | e1⟩
  · rcases h2 : sys.valKeyGen (writeArgs set.ValidatorNodeMnemonic p d [] []
        (dir ++ lit "/validator_node_id.key")) w1 with ⟨w2, _ | e2⟩
    · rcases h3 : sys.valKeyGen (writeArgs set.ValidatorValMnemonic p d
          (dir ++ lit "/priv_validator_key.json") [] []) w2 with ⟨w3, _ | e3⟩
      · rcases h4 : sys.create (dir ++ lit "/mnemonics.env") w3 with ⟨w4, _ | e4⟩
        · rcases h5 : sys.writeString (dir ++ lit "/mnemonics.env") (dataToWrite m set) w4
            with ⟨w5, _ | e5⟩
          · refine ⟨5, ?_⟩
            simp [h1, h2, h3, h4, h5, State.emit, State.setWorld, writeSteps, pathChecks,
              derivations, Event.request?, Event.error?, worldAfter, faithful, Event.act,
              Event.answered, writeArgs_inj, lit_nodeKey_ne_nil,
              lit_nodeId_ne_nil, lit_privValidator_ne_nil]
          · refine ⟨5, ?_⟩
            simp [h1, h2, h3, h4, h5, State.emit, State.setWorld, writeSteps, pathChecks,
              derivations, Event.request?, Event.error?, worldAfter, faithful, Event.act,
              Event.answered, writeArgs_inj, lit_nodeKey_ne_nil,
              lit_nodeId_ne_nil, lit_privValidator_ne_nil]
        · refine ⟨4, ?_⟩
          simp [h1, h2, h3, h4, State.emit, State.setWorld, writeSteps, pathChecks,
            derivations, Event.request?, Event.error?, worldAfter, faithful, Event.act,
              Event.answered, writeArgs_inj, lit_nodeKey_ne_nil,
              lit_nodeId_ne_nil, lit_privValidator_ne_nil]
      · refine ⟨3, ?_⟩
        simp [h1, h2, h3, State.emit, State.setWorld, writeSteps, pathChecks,
          derivations, Event.request?, Event.error?, worldAfter, faithful, Event.act,
              Event.answered, writeArgs_inj, lit_nodeKey_ne_nil,
              lit_nodeId_ne_nil, lit_privValidator_ne_nil]
    · refine ⟨2, ?_⟩
      simp [h1, h2, State.emit, State.setWorld, writeSteps, pathChecks,
        derivations, Event.request?, Event.error?, worldAfter, faithful, Event.act,
              Event.answered, writeArgs_inj, lit_nodeKey_ne_nil,
              lit_nodeId_ne_nil, lit_privValidator_ne_nil]
  · refine ⟨1, ?_⟩
    simp [h1, State.emit, State.setWorld, writeSteps, pathChecks,
      derivations, Event.request?, Event.error?, worldAfter, faithful, Event.act,
              Event.answered, writeArgs_inj, lit_nodeKey_ne_nil,
              lit_nodeId_ne_nil, lit_privValidator_ne_nil]

/-- `MasterKeysGen` past the two checks: the derivation phase, then, for a
non-empty directory, the emission phase. -/
theorem MasterKeysGen_of_ok {W : Type} (lib : Lib) (sys : Sys W) (m p d dir : Bytes)
    (s : State W) (w : W) (hm : lib.checkMnemonic m = none)
    (hp : sys.checkPath [dir] s.world = (w, true, none)) :
    MasterKeysGen lib sys m p d dir s =
      (match deriveKeys lib m
          { world := w,
            trace := s.trace ++ [.checkMnemonic m none, .checkPath [dir] true none] } with
        | (.exited code, s2) => (.exited code, s2)
        | (.returned (set, some err), s2) => (.returned (set, some err), s2)
        | (.returned (set, none), s2) =>
          if dir ≠ [] then emitArtifacts sys m p d dir set s2 else (.returned (set, none), s2)) := by
  unfold MasterKeysGen
  simp only [hm, State.emit_world, hp]
  simp only [State.emit, State.setWorld, List.append_assoc, List.singleton_append]

theorem derive_ok (lib : Lib) (name typ master : Bytes)
    (h : (derive lib name typ master).2 = none) :
    lib.newMnemonic (sha256Sum (stringToHash lib.caseTable name typ master)) =
      .ok (derive lib name typ master).1 := by
  rw [derive_eq] at h ⊢
  cases hc : lib.newMnemonic (sha256Sum (stringToHash lib.caseTable name typ master)) with
  | error err => rw [hc] at h; cases h
  | ok w => rfl

/-- An encoder that accepts every 32-byte entropy makes every derivation succeed. -/
theorem derive_of_accepts (lib : Lib) (name typ master : Bytes)
    (hEnc : ∀ e, e.length = 32 → ∃ w, lib.newMnemonic e = .ok w) :
    (derive lib name typ master).2 = none := by
  obtain ⟨w, hw⟩ := hEnc _ (sha256Sum_length (stringToHash lib.caseTable name typ master))
  rw [derive_eq, hw]

theorem leadingDerivations_eq_five (lib : Lib) (m : Bytes) :
    leadingDerivations lib m = 5 ↔
      (derive lib (lit "validator") (lit "node") m).2 = none ∧
      (derive lib (lit "validator") (lit "addr") m).2 = none ∧
      (derive lib (lit "validator") (lit "val") m).2 = none ∧
      (derive lib (lit "signer") (lit "addr") m).2 = none ∧
      (derive lib (lit "priv") (lit "key") m).2 = none := by
  unfold leadingDerivations orchestratedRoles derive
  generalize generateFromMasterMnemonic lib.caseTable lib.newMnemonic = gen
  rcases h1 : gen (lit "validator") (lit "node") m with ⟨v1, _ | e1⟩ <;>
  rcases h2 : gen (lit "validator") (lit "addr") m with ⟨v2, _ | e2⟩ <;>
  rcases h3 : gen (lit "validator") (lit "val") m with ⟨v3, _ | e3⟩ <;>
  rcases h4 : gen (lit "signer") (lit "addr") m with ⟨v4, _ | e4⟩ <;>
  rcases h5 : gen (lit "priv") (lit "key") m with ⟨v5, _ | e5⟩ <;>
  simp [List.takeWhile, h1, h2, h3, h4, h5]

theorem writeSteps_append (a b : List Event) : writeSteps (a ++ b) = writeSteps a ++ writeSteps b := by
  simp [writeSteps]

theorem derivations_append (a b : List Event) :
    derivations (a ++ b) = derivations a ++ derivations b := by
  simp [derivations]

theorem pathChecks_append (a b : List Event) : pathChecks (a ++ b) = pathChecks a ++ pathChecks b := by
  simp [pathChecks]

theorem leadingDerivations_of_all (lib : Lib) (m : Bytes)
    (h : ∀ r ∈ orchestratedRoles, (derive lib r.1 r.2 m).2 = none) :
    leadingDerivations lib m = 5 :=
  (leadingDerivations_eq_five lib m).2
    ⟨h (lit "validator", lit "node") (by simp [orchestratedRoles]),
      h (lit "validator", lit "addr") (by simp [orchestratedRoles]),
      h (lit "validator", lit "val") (by simp [orchestratedRoles]),
      h (lit "signer", lit "addr") (by simp [orchestratedRoles]),
      h (lit "priv", lit "key") (by simp [orchestratedRoles])⟩

theorem all_of_leadingDerivations (lib : Lib) (m : Bytes) (h : leadingDerivations lib m = 5) :
    ∀ r ∈ orchestratedRoles, (derive lib r.1 r.2 m).2 = none := by
  obtain ⟨h1, h2, h3, h4, h5⟩ := (leadingDerivations_eq_five lib m).1 h
  intro r hr
  simp only [orchestratedRoles, List.mem_cons, List.mem_singleton, List.not_mem_nil,
    or_false] at hr
  rcases hr with rfl | rfl | rfl | rfl | rfl <;> assumption

theorem not_mem_of_writeSteps_nil (evs : List Event) (ev : Event) (h : writeSteps evs = [])
    (hw : (ev.request?).isSome = true) : ev ∉ evs := by
  intro hmem
  have : ev ∈ writeSteps evs := by
    unfold writeSteps
    exact List.mem_filter.2 ⟨hmem, hw⟩
  rw [h] at this
  cases this

/-- With both checks passed, all five derivations succeeding, a node mnemonic
that validates and a non-empty directory, a run is the emission phase on the
complete set, started after steps that write nothing. -/
theorem MasterKeysGen_reaches_emission {W : Type} (lib : Lib) (sys : Sys W) (m p d dir : Bytes)
    (s : State W) (w : W) (hvalid : lib.checkMnemonic m = none)
    (hpath : sys.checkPath [dir] s.world = (w, true, none)) (hdir : dir ≠ [])
    (hderive : leadingDerivations lib m = 5)
    (hnode : lib.checkMnemonic (derive lib (lit "validator") (lit "node") m).1 = none) :
    ∃ s2 evs, s2.world = w ∧
      s2.trace = s.trace ++ [.checkMnemonic m none, .checkPath [dir] true none] ++ evs ∧
      writeSteps evs = [] ∧
      MasterKeysGen lib sys m p d dir s = emitArtifacts sys m p d dir (setAfter lib m 5) s2 := by
  rw [MasterKeysGen_of_ok lib sys _ _ _ _ s w hvalid hpath]
  obtain ⟨evs, hst, hws, -, -, -, hErr, hOk, hExit, -⟩ := deriveKeys_spec lib m
    { world := w,
      trace := s.trace ++ [.checkMnemonic m none, .checkPath [dir] true none] } hvalid
  generalize deriveKeys lib m _ = r at hErr hOk hExit hst ⊢
  rcases r with ⟨_ | _, s2⟩
  · rename_i v
    rcases v with ⟨set, _ | e⟩
    · obtain ⟨hset, -, -⟩ := hOk set rfl
      subst hset
      simp only at hst
      refine ⟨s2, evs, by rw [hst], by rw [hst], hws, ?_⟩
      simp only [hdir, ne_eq, not_false_eq_true, if_true]
    · obtain ⟨-, hlt⟩ := hErr set e rfl
      omega
  · rename_i code
    obtain ⟨-, -, hne⟩ := hExit code rfl
    exact absurd hnode hne

/-! ## The sample run -/

theorem sampleLib_leadingDerivations (m : Bytes) : leadingDerivations sampleLib m = 5 := by
  have hEnc : ∀ e : Bytes, e.length = 32 → ∃ x, sampleLib.newMnemonic e = .ok x := by
    intro e he
    exact ⟨hexEncodeToString e, by simp [sampleLib, he]⟩
  exact (leadingDerivations_eq_five sampleLib m).2
    ⟨derive_of_accepts _ _ _ _ hEnc, derive_of_accepts _ _ _ _ hEnc, derive_of_accepts _ _ _ _ hEnc,
      derive_of_accepts _ _ _ _ hEnc, derive_of_accepts _ _ _ _ hEnc⟩

set_option maxRecDepth 1000000 in
/-- The five child mnemonics and the node identifier of the sample master mnemonic. -/
theorem sampleSet_eq : setAfter sampleLib sampleMaster 5 = sampleSet := by
  decide

theorem sampleLib_derive (name typ m : Bytes) :
    derive sampleLib name typ m =
      (hexEncodeToString (sha256Sum (stringToHash sampleLib.caseTable name typ m)), none) := by
  rw [derive_eq]
  simp [sampleLib, sha256Sum_length]

theorem hexDigest_ne_nil (x : Bytes) : hexEncodeToString (sha256Sum x) ≠ [] := by
  intro h
  have := congrArg List.length h
  simp [hexEncodeToString_length, sha256Sum_length] at this

theorem sampleLib_node_valid (name typ m : Bytes) :
    sampleLib.checkMnemonic (derive sampleLib name typ m).1 = none := by
  rw [sampleLib_derive]
  simp [sampleLib, hexDigest_ne_nil]

/-- In the read-only world the sample run fails at the first write and returns
the complete set with the error. -/
theorem sample_run_readOnly :
    (MasterKeysGen sampleLib readOnlySys sampleMaster DefaultPrefix DefaultPath sampleDir
      sampleStart).1 = .returned (sampleSet, some permissionDenied) := by
  obtain ⟨s2, evs, -, -, -, h⟩ := MasterKeysGen_reaches_emission sampleLib readOnlySys sampleMaster
    DefaultPrefix DefaultPath sampleDir sampleStart [] (by decide) rfl (by decide)
    (sampleLib_leadingDerivations _) (sampleLib_node_valid _ _ _)
  rw [h, sampleSet_eq]
  simp [emitArtifacts, GenerateValidatorNodeKeyJson, callValKeyGen, readOnlySys]

/-- In the in-memory world the sample run succeeds and returns the complete set. -/
theorem sample_run_mem :
    (MasterKeysGen sampleLib memSys sampleMaster DefaultPrefix DefaultPath sampleDir
      sampleStart).1 = .returned (sampleSet, none) := by
  obtain ⟨s2, evs, -, -, -, h⟩ := MasterKeysGen_reaches_emission sampleLib memSys sampleMaster
    DefaultPrefix DefaultPath sampleDir sampleStart [] (by decide) rfl (by decide)
    (sampleLib_leadingDerivations _) (sampleLib_node_valid _ _ _)
  rw [h, sampleSet_eq]
  simp [emitArtifacts, GenerateValidatorNodeKeyJson, GenerateValidatorNodeIdFile,
    GeneratePrivValidatorKeyJson, callValKeyGen, createMnemonicsFile, memSys, State.emit,
    State.setWorld]

theorem setAfter_node (lib : Lib) (m : Bytes) :
    (setAfter lib m 5).ValidatorNodeMnemonic = (derive lib (lit "validator") (lit "node") m).1 :=
  rfl

theorem eq_mk_of_fst {α β : Type} (p : α × β) (a : α) (h : p.1 = a) : p = (a, p.2) := by
  cases p
  simp only at h
  rw [h]

set_option maxRecDepth 100000 in
/-- In the world where only the node identifier file cannot be written, the
sample run records the failed call for that file. -/
theorem sample_run_nodeIdFails :
    Event.valKeyGen
        (writeArgs (derive sampleLib (lit "validator") (lit "node") sampleMaster).1
          DefaultPrefix DefaultPath [] [] (sampleDir ++ lit "/validator_node_id.key"))
        (some permissionDenied) ∈
      (MasterKeysGen sampleLib nodeIdFailsSys sampleMaster DefaultPrefix DefaultPath sampleDir
        sampleStart).2.trace.drop sampleStart.trace.length := by
  obtain ⟨s2, evs, -, -, -, h⟩ := MasterKeysGen_reaches_emission sampleLib nodeIdFailsSys
    sampleMaster DefaultPrefix DefaultPath sampleDir sampleStart [] (by decide) rfl (by decide)
    (sampleLib_leadingDerivations _) (sampleLib_node_valid _ _ _)
  rw [h]
  have hd : sampleStart.trace.length = 0 := rfl
  rw [hd, List.drop_zero]
  unfold emitArtifacts GenerateValidatorNodeKeyJson GenerateValidatorNodeIdFile callValKeyGen
  rw [joinPath_nodeKey, joinPath_nodeId, setAfter_node]
  simp [nodeIdFailsSys, memSys, writeArgs, State.emit, State.setWorld, lit_nodeId_ne_nil]

/-! ## The summary data, the words of a phrase and the role labels -/

/-- The data of line 175 is the six lines of the summary followed by one space. -/
theorem dataToWrite_eq (m : Bytes) (set : MasterMnemonicSet) :
    dataToWrite m set = summaryLines m set ++ [0x20] := by
  unfold dataToWrite summaryLines envLine
  simp only [List.append_assoc]
  rfl

theorem append_singleton_ne_self (l : Bytes) (c : Nat) : l ++ [c] ≠ l := by
  intro h
  have := congrArg List.length h
  simp at this

/-- The hashed part of a phrase is the concatenation of the hashed parts of its
space-separated words. -/
theorem removeSpaces_stringsToLower_fieldsAux (tbl : Nat → Nat) :
    ∀ (rest acc : Bytes),
      removeSpaces (stringsToLower tbl (acc ++ rest)) =
        ((fieldsAux isSpace acc rest).map
          (fun w => removeSpaces (stringsToLower tbl w))).flatten := by
  intro rest
  induction rest with
  | nil =>
    intro acc
    by_cases h : acc = []
    · subst h
      simp [fieldsAux, stringsToLower, removeSpaces]
    · simp [fieldsAux, h]
  | cons c rest ih =>
    intro acc
    by_cases hc : c = 0x20
    · subst hc
      have hl : unicodeToLower tbl 0x20 = 0x20 := by simp [unicodeToLower]
      have e0 : removeSpaces (stringsToLower tbl []) = [] := by
        simp [stringsToLower, removeSpaces]
      rw [stringsToLower_append_ascii tbl acc rest 0x20 (by omega), removeSpaces_append, hl]
      have e1 : removeSpaces (0x20 :: stringsToLower tbl rest) =
          removeSpaces (stringsToLower tbl rest) := by
        simp [removeSpaces]
      rw [e1]
      have ih0 := ih []
      rw [List.nil_append] at ih0
      by_cases h : acc = []
      · subst h
        simp [fieldsAux, isSpace, e0, ih0]
      · simp [fieldsAux, isSpace, h, ih0]
    · have e : acc ++ c :: rest = (acc ++ [c]) ++ rest := by simp
      rw [e, ih (acc ++ [c])]
      simp [fieldsAux, isSpace, hc]

theorem removeSpaces_stringsToLower_fieldsBy (tbl : Nat → Nat) (m : Bytes) :
    removeSpaces (stringsToLower tbl m) =
      ((fieldsBy isSpace m).map (fun w => removeSpaces (stringsToLower tbl w))).flatten := by
  have h := removeSpaces_stringsToLower_fieldsAux tbl m []
  rw [List.nil_append] at h
  exact h

/-- The derivations of any run are an initial part of `orchestratedRoles`. -/
theorem MasterKeysGen_derivations {W : Type} (lib : Lib) (sys : Sys W) (m p d dir : Bytes)
    (s : State W) :
    derivations ((MasterKeysGen lib sys m p d dir s).2.trace.drop s.trace.length) <+:
      orchestratedRoles := by
  rcases hc : lib.checkMnemonic m with _ | ec
  · rcases hp : sys.checkPath [dir] s.world with ⟨w, ok, _ | ep⟩
    · cases ok
      · unfold MasterKeysGen
        simp [hc, hp, State.emit, State.setWorld, derivations]
      · rw [MasterKeysGen_of_ok lib sys _ _ _ _ s w hc hp]
        obtain ⟨evs, hst, -, -, -, hpre, -, -, -⟩ := deriveKeys_spec lib m
          { world := w,
            trace := s.trace ++ [.checkMnemonic m none, .checkPath [dir] true none] } hc
        generalize deriveKeys lib m _ = r at hst ⊢
        have hd : ∀ evs2, derivations evs2 = [] →
            derivations ((s.trace ++ [Event.checkMnemonic m none,
              Event.checkPath [dir] true none] ++ evs ++ evs2).drop s.trace.length) <+:
              orchestratedRoles := by
          intro evs2 h2
          have : (s.trace ++ [Event.checkMnemonic m none,
              Event.checkPath [dir] true none] ++ evs ++ evs2).drop s.trace.length =
              [Event.checkMnemonic m none, Event.checkPath [dir] true none] ++ evs ++ evs2 := by
            simp
          rw [this, derivations_append, derivations_append, h2, List.append_nil]
          simpa [derivations] using hpre
        rcases r with ⟨_ | _, s2⟩
        · rename_i v
          rcases v with ⟨set, _ | e⟩
          · simp only at hst
            simp only
            split_ifs with hdir
            · obtain ⟨evs2, k, -, -, htr, hder, -⟩ := emitArtifacts_spec sys m p d dir set s2
              rw [htr, hst]
              exact hd evs2 hder
            · rw [hst]
              simpa using hd [] rfl
          · simp only at hst
            rw [hst]
            simpa using hd [] rfl
        · simp only at hst
          rw [hst]
          simpa using hd [] rfl
    · unfold MasterKeysGen
      simp [hc, hp, State.emit, State.setWorld, derivations]
  · unfold MasterKeysGen
    simp [hc, State.emit, derivations]

theorem hashed_role (tbl : Nat → Nat) :
    removeSpaces (stringsToLower tbl (lit "validator")) = lit "validator" ∧
    removeSpaces (stringsToLower tbl (lit "signer")) = lit "signer" ∧
    removeSpaces (stringsToLower tbl (lit "priv")) = lit "priv" ∧
    removeSpaces (stringsToLower tbl (lit "node")) = lit "node" ∧
    removeSpaces (stringsToLower tbl (lit "addr")) = lit "addr" ∧
    removeSpaces (stringsToLower tbl (lit "val")) = lit "val" ∧
    removeSpaces (stringsToLower tbl (lit "key")) = lit "key" :=
  ⟨rfl, rfl, rfl, rfl, rfl, rfl, rfl⟩

/-! ## The properties -/

/-- C1. Child-mnemonic derivation is deterministic. The entropy of line 73 is
the SHA-256 digest of the hashed string, a value computed from the three
arguments alone. Two invocations with the same arguments, made in any two states
of the world and of the trace, return the same pair of mnemonic and error, the
pair that `generateFromMasterMnemonic` computes; an invocation leaves the world
as it was. The pair depends on the arguments only through the hashed string:
arguments with the same hashed string give the same pair. -/
theorem generateFromMasterMnemonic_deterministic {W1 W2 : Type} (lib : Lib)
    (name typeOfMnemonic masterMnemonic : Bytes) (s1 : State W1) (s2 : State W2) :
    entropy lib.caseTable name typeOfMnemonic masterMnemonic =
        (sha256Sum (stringToHash lib.caseTable name typeOfMnemonic masterMnemonic), none) ∧
      (callGenerate lib name typeOfMnemonic masterMnemonic s1).1 =
        (callGenerate lib name typeOfMnemonic masterMnemonic s2).1 ∧
      (callGenerate lib name typeOfMnemonic masterMnemonic s1).1 =
        generateFromMasterMnemonic lib.caseTable lib.newMnemonic name typeOfMnemonic
          masterMnemonic ∧
      (callGenerate lib name typeOfMnemonic masterMnemonic s1).2.world = s1.world ∧
      (∀ name' type' master',
        stringToHash lib.caseTable name' type' master' =
            stringToHash lib.caseTable name typeOfMnemonic masterMnemonic →
          generateFromMasterMnemonic lib.caseTable lib.newMnemonic name' type' master' =
            generateFromMasterMnemonic lib.caseTable lib.newMnemonic name typeOfMnemonic
              masterMnemonic) := by
  refine ⟨hexDecodeString_entropyHex _ _ _ _, rfl, rfl, rfl, ?_⟩
  intro name' type' master' h
  rw [generateFromMasterMnemonic_eq, generateFromMasterMnemonic_eq, h]

set_option maxRecDepth 1000000 in
/-- C2, counterexample. The sample master mnemonic and the same phrase with a tab
after its first word have the same words and differ only in the whitespace
between them, yet for the label `validator`, `node` the strings that are hashed
differ, because the tab is kept. With the sample encoder the two child
mnemonics, the hexadecimal digests of the two strings, differ as well. -/
theorem generateFromMasterMnemonic_tab_counterexample :
    fieldsBy isWhitespace sampleMasterTab = fieldsBy isWhitespace sampleMaster ∧
      stringToHash sampleLib.caseTable (lit "validator") (lit "node") sampleMasterTab =
        sampleHashedTab ++ lit ";validatornode" ∧
      stringToHash sampleLib.caseTable (lit "validator") (lit "node") sampleMaster =
        sampleHashed ++ lit ";validatornode" ∧
      sampleHashedTab ++ lit ";validatornode" ≠ sampleHashed ++ lit ";validatornode" ∧
      generateFromMasterMnemonic sampleLib.caseTable sampleLib.newMnemonic (lit "validator")
          (lit "node") sampleMasterTab =
        (lit "f1a998d8e75af5b0f2cd97bd3cfe5ab7819d10cfb266823ca2f4ad494e164bea", none) ∧
      generateFromMasterMnemonic sampleLib.caseTable sampleLib.newMnemonic (lit "validator")
          (lit "node") sampleMaster =
        (lit "e6e592d4f7cc4edd7749132d247dbed956d48598e6ba75e8ca14a59b266d1085", none) := by
  decide

/-- C2, amended. For every name and type and every two master mnemonics that
consist of the same words in the same order and differ only in the space
characters (U+0020) before, between and after the words,
`generateFromMasterMnemonic` hashes the same string and returns the same child
mnemonic and error. Only the space character is removed before hashing. -/
theorem generateFromMasterMnemonic_space_insensitive (caseTable : Nat → Nat)
    (newMnemonic : Bytes → Except GoError Bytes) (name typeOfMnemonic m1 m2 : Bytes)
    (hwords : fieldsBy isSpace m1 = fieldsBy isSpace m2) :
    stringToHash caseTable name typeOfMnemonic m1 = stringToHash caseTable name typeOfMnemonic m2 ∧
      generateFromMasterMnemonic caseTable newMnemonic name typeOfMnemonic m1 =
        generateFromMasterMnemonic caseTable newMnemonic name typeOfMnemonic m2 := by
  have h : stringToHash caseTable name typeOfMnemonic m1 =
      stringToHash caseTable name typeOfMnemonic m2 := by
    rw [stringToHash_eq, stringToHash_eq, removeSpaces_stringsToLower_fieldsBy caseTable m1,
      removeSpaces_stringsToLower_fieldsBy caseTable m2, hwords]
  refine ⟨h, ?_⟩
  rw [generateFromMasterMnemonic_eq, generateFromMasterMnemonic_eq, h]

/-- C2, witness of the amended claim: the phrases `  abandon   art ` and
`abandon art` have the same space-separated words, and the same hashed string. -/
theorem generateFromMasterMnemonic_space_insensitive_witness :
    fieldsBy isSpace (lit "  abandon   art ") = fieldsBy isSpace (lit "abandon art") ∧
      stringToHash sampleLib.caseTable (lit "validator") (lit "node") (lit "  abandon   art ") =
        stringToHash sampleLib.caseTable (lit "validator") (lit "node") (lit "abandon art") :=
  ⟨by decide, (generateFromMasterMnemonic_space_insensitive sampleLib.caseTable
    sampleLib.newMnemonic (lit "validator") (lit "node") (lit "  abandon   art ")
    (lit "abandon art") (by decide)).1⟩

/-- C3. Validation gate. When the external validator rejects the master
mnemonic, then for every address prefix, HD path and output directory
`MasterKeysGen` returns that validation error with a set whose six fields are
empty, leaves the world as it was, and takes two steps only: the check of the
mnemonic and the print of the error. The run derives no child mnemonic,
consults no path check, calls the key-artifact writer zero times and creates
no file. -/
theorem MasterKeysGen_validation_gate {W : Type} (lib : Lib) (sys : Sys W)
    (masterMnemonic defaultPrefix defaultPath masterkeys : Bytes) (s : State W) (err : GoError)
    (hreject : lib.checkMnemonic masterMnemonic = some err) :
    MasterKeysGen lib sys masterMnemonic defaultPrefix defaultPath masterkeys s =
        (.returned
          ({ ValidatorAddrMnemonic := [], ValidatorValMnemonic := [], SignerAddrMnemonic := [],
             ValidatorNodeMnemonic := [], ValidatorNodeId := [], PrivKeyMnemonic := [] },
            some err),
          { world := s.world,
            trace := s.trace ++
              [.checkMnemonic masterMnemonic (some err), .stderr (err.Error ++ [0x0A])] }) ∧
      derivations ((MasterKeysGen lib sys masterMnemonic defaultPrefix defaultPath masterkeys
        s).2.trace.drop s.trace.length) = [] ∧
      pathChecks ((MasterKeysGen lib sys masterMnemonic defaultPrefix defaultPath masterkeys
        s).2.trace.drop s.trace.length) = [] ∧
      writeSteps ((MasterKeysGen lib sys masterMnemonic defaultPrefix defaultPath masterkeys
        s).2.trace.drop s.trace.length) = [] := by
  have h : MasterKeysGen lib sys masterMnemonic defaultPrefix defaultPath masterkeys s =
      (.returned ({}, some err),
        { world := s.world,
          trace := s.trace ++
            [.checkMnemonic masterMnemonic (some err), .stderr (err.Error ++ [0x0A])] }) := by
    unfold MasterKeysGen
    simp [hreject, State.emit, fprintln]
  rw [h]
  simp [derivations, pathChecks, writeSteps, Event.request?]

/-- C3, witness: the sample validator rejects the empty phrase, and the run on
it returns the error with the empty set, an unchanged empty file system and the
two steps. -/
theorem MasterKeysGen_validation_gate_witness :
    sampleLib.checkMnemonic [] = some (.external (lit "Invalid mnemonic")) ∧
      MasterKeysGen sampleLib memSys [] DefaultPrefix DefaultPath sampleDir sampleStart =
        (.returned ({}, some (.external (lit "Invalid mnemonic"))),
          { world := [],
            trace := [.checkMnemonic [] (some (.external (lit "Invalid mnemonic"))),
              .stderr (lit "Invalid mnemonic\n")] }) :=
  ⟨rfl, (MasterKeysGen_validation_gate sampleLib memSys [] DefaultPrefix DefaultPath sampleDir
    sampleStart (.external (lit "Invalid mnemonic")) rfl).1⟩

/-- C4, counterexample. In the sample world whose output directory is read-only,
the run on the sample master mnemonic fails at the first artifact write and
returns, beside the non-nil error, a set whose six fields are all non-empty. -/
theorem MasterKeysGen_partial_set_counterexample :
    (MasterKeysGen sampleLib readOnlySys sampleMaster DefaultPrefix DefaultPath sampleDir
        sampleStart).1 = .returned (sampleSet, some permissionDenied) ∧
      sampleSet.ValidatorNodeMnemonic ≠ [] ∧ sampleSet.ValidatorNodeId ≠ [] ∧
      sampleSet.ValidatorAddrMnemonic ≠ [] ∧ sampleSet.ValidatorValMnemonic ≠ [] ∧
      sampleSet.SignerAddrMnemonic ≠ [] ∧ sampleSet.PrivKeyMnemonic ≠ [] :=
  ⟨sample_run_readOnly, by decide, by decide, by decide, by decide, by decide, by decide⟩

/-- C4, amended. For every input on which `MasterKeysGen` returns a non-nil
error, the set returned with it is the set as built so far, and nothing is
cleared. It is the empty set when the validation of the master mnemonic or the
path check fails. Past the two checks it holds the child mnemonics of the
derivations that succeeded before the first failing one (the node identifier
comes with the validator-node mnemonic), and its other fields are empty; so it
is empty when the first derivation fails, and it is the complete set when all
five derivations succeeded and an artifact write failed. -/
theorem MasterKeysGen_error_set {W : Type} (lib : Lib) (sys : Sys W)
    (masterMnemonic defaultPrefix defaultPath masterkeys : Bytes) (s s' : State W)
    (mnemonicSet : MasterMnemonicSet) (err : GoError)
    (hrun : MasterKeysGen lib sys masterMnemonic defaultPrefix defaultPath masterkeys s =
      (.returned (mnemonicSet, some err), s')) :
    (lib.checkMnemonic masterMnemonic ≠ none ∨
        (sys.checkPath [masterkeys] s.world).2.2 ≠ none → mnemonicSet = {}) ∧
      (lib.checkMnemonic masterMnemonic = none →
        (sys.checkPath [masterkeys] s.world).2.2 = none →
          mnemonicSet = setAfter lib masterMnemonic (leadingDerivations lib masterMnemonic)) := by
  rcases hc : lib.checkMnemonic masterMnemonic with _ | ec
  · rcases hp : sys.checkPath [masterkeys] s.world with ⟨w, ok, _ | ep⟩
    · cases ok
      · unfold MasterKeysGen at hrun
        simp [hc, hp] at hrun
      · rw [MasterKeysGen_of_ok lib sys _ _ _ _ s w hc hp] at hrun
        obtain ⟨evs, -, -, -, -, -, hErr, hOk, -⟩ := deriveKeys_spec lib masterMnemonic
          { world := w,
            trace := s.trace ++ [.checkMnemonic masterMnemonic none,
              .checkPath [masterkeys] true none] } hc
        generalize deriveKeys lib masterMnemonic _ = r at hrun hErr hOk
        rcases r with ⟨_ | _, s2⟩
        · rename_i v
          rcases v with ⟨set, _ | e⟩
          · obtain ⟨hset, hk⟩ := hOk set rfl
            simp only at hrun
            split_ifs at hrun with hdir
            · obtain ⟨evs2, k, -, -, -, -, -, -, -, hres, -⟩ :=
                emitArtifacts_spec sys masterMnemonic defaultPrefix defaultPath masterkeys set s2
              rw [hrun] at hres
              simp only [Outcome.returned.injEq, Prod.mk.injEq] at hres
              simp [hres.1, hset, hk.1]
            · simp at hrun
          · obtain ⟨hset, -⟩ := hErr set e rfl
            simp only [Prod.mk.injEq, Outcome.returned.injEq] at hrun
            simp [← hrun.1.1, hset]
        · simp at hrun
    · unfold MasterKeysGen at hrun
      simp [hc, hp] at hrun
      simp [hrun.1.1]
  · unfold MasterKeysGen at hrun
    simp [hc] at hrun
    simp [hrun.1.1]

/-- C4, witness of the amended claim: the run in the read-only sample world
returns the error of the first write with the set of all five derivations. -/
theorem MasterKeysGen_error_set_witness :
    (MasterKeysGen sampleLib readOnlySys sampleMaster DefaultPrefix DefaultPath sampleDir
        sampleStart).1 = .returned (sampleSet, some permissionDenied) ∧
      sampleSet = setAfter sampleLib sampleMaster (leadingDerivations sampleLib sampleMaster) :=
  ⟨sample_run_readOnly,
    (MasterKeysGen_error_set sampleLib readOnlySys sampleMaster DefaultPrefix DefaultPath
      sampleDir sampleStart
      (MasterKeysGen sampleLib readOnlySys sampleMaster DefaultPrefix DefaultPath sampleDir
        sampleStart).2
      sampleSet permissionDenied (eq_mk_of_fst _ _ sample_run_readOnly)).2 (by decide) rfl⟩

/-- C5, counterexample. In the sample world whose path check answers "not ok"
without an error, the run on the sample master mnemonic returns a nil error
with a set whose six fields are empty, while the derivation for the label
`validator`, `node` succeeds with a non-empty child mnemonic. -/
theorem MasterKeysGen_not_ok_counterexample :
    (MasterKeysGen sampleLib notOkSys sampleMaster DefaultPrefix DefaultPath sampleDir
        sampleStart).1 =
        .returned
          ({ ValidatorAddrMnemonic := [], ValidatorValMnemonic := [], SignerAddrMnemonic := [],
             ValidatorNodeMnemonic := [], ValidatorNodeId := [], PrivKeyMnemonic := [] },
            none) ∧
      derive sampleLib (lit "validator") (lit "node") sampleMaster =
        (sampleSet.ValidatorNodeMnemonic, none) ∧
      sampleSet.ValidatorNodeMnemonic ≠ [] := by
  refine ⟨by decide, ?_, by decide⟩
  have h := congrArg MasterMnemonicSet.ValidatorNodeMnemonic sampleSet_eq
  rw [sampleLib_derive]
  rw [← h]
  simp only [setAfter]
  rw [sampleLib_derive]
  rfl

/-- C5, amended. For every input on which `MasterKeysGen` returns a nil error
after the path check answered "ok" (also with an empty output directory, where
no write step is taken), each of the five derivations from the master mnemonic
succeeded and the returned set holds its child mnemonic in the field of its
label; the node identifier is the one computed from the validator-node mnemonic
alone; and the six fields are non-empty whenever the external encoder and the
external node-identity routine never return an empty value. When the path check
answered "not ok" without an error, `MasterKeysGen` returns a nil error with the
empty set, having derived and written nothing. -/
theorem MasterKeysGen_nil_error_set {W : Type} (lib : Lib) (sys : Sys W)
    (masterMnemonic defaultPrefix defaultPath masterkeys : Bytes) (s s' : State W)
    (mnemonicSet : MasterMnemonicSet)
    (hrun : MasterKeysGen lib sys masterMnemonic defaultPrefix defaultPath masterkeys s =
      (.returned (mnemonicSet, none), s')) :
    ((sys.checkPath [masterkeys] s.world).2.1 = true →
      derive lib (lit "validator") (lit "node") masterMnemonic =
          (mnemonicSet.ValidatorNodeMnemonic, none) ∧
        derive lib (lit "validator") (lit "addr") masterMnemonic =
          (mnemonicSet.ValidatorAddrMnemonic, none) ∧
        derive lib (lit "validator") (lit "val") masterMnemonic =
          (mnemonicSet.ValidatorValMnemonic, none) ∧
        derive lib (lit "signer") (lit "addr") masterMnemonic =
          (mnemonicSet.SignerAddrMnemonic, none) ∧
        derive lib (lit "priv") (lit "key") masterMnemonic =
          (mnemonicSet.PrivKeyMnemonic, none) ∧
        mnemonicSet.ValidatorNodeId = lib.nodeID mnemonicSet.ValidatorNodeMnemonic ∧
        (masterkeys = [] → writeSteps (s'.trace.drop s.trace.length) = []) ∧
        ((∀ e w, lib.newMnemonic e = .ok w → w ≠ []) → (∀ x, lib.nodeID x ≠ []) →
          mnemonicSet.ValidatorNodeMnemonic ≠ [] ∧ mnemonicSet.ValidatorAddrMnemonic ≠ [] ∧
          mnemonicSet.ValidatorValMnemonic ≠ [] ∧ mnemonicSet.SignerAddrMnemonic ≠ [] ∧
          mnemonicSet.PrivKeyMnemonic ≠ [] ∧ mnemonicSet.ValidatorNodeId ≠ [])) ∧
    ((sys.checkPath [masterkeys] s.world).2.1 = false →
      mnemonicSet = {} ∧ derivations (s'.trace.drop s.trace.length) = [] ∧
        writeSteps (s'.trace.drop s.trace.length) = []) := by
  rcases hc : lib.checkMnemonic masterMnemonic with _ | ec
  · rcases hp : sys.checkPath [masterkeys] s.world with ⟨w, ok, _ | ep⟩
    · cases ok
      · unfold MasterKeysGen at hrun
        simp [hc, hp] at hrun
        simp [← hrun.1, ← hrun.2, State.emit, State.setWorld, derivations, writeSteps,
          Event.request?]
      · rw [MasterKeysGen_of_ok lib sys _ _ _ _ s w hc hp] at hrun
        obtain ⟨evs, hst, hws, -, -, -, hErr, hOk, -⟩ := deriveKeys_spec lib masterMnemonic
          { world := w,
            trace := s.trace ++ [.checkMnemonic masterMnemonic none,
              .checkPath [masterkeys] true none] } hc
        generalize deriveKeys lib masterMnemonic _ = r at hrun hErr hOk hst
        rcases r with ⟨_ | _, s2⟩
        · rename_i v
          rcases v with ⟨set, _ | e⟩
          · obtain ⟨hset, hk, -⟩ := hOk set rfl
            have hset' : mnemonicSet = set := by
              simp only at hrun
              split_ifs at hrun with hdir
              · obtain ⟨evs2, k, -, -, -, -, -, -, -, hres, -⟩ :=
                  emitArtifacts_spec sys masterMnemonic defaultPrefix defaultPath masterkeys set s2
                rw [hrun] at hres
                simp only [Outcome.returned.injEq, Prod.mk.injEq] at hres
                exact hres.1
              · simp only [Prod.mk.injEq, Outcome.returned.injEq, and_true] at hrun
                exact hrun.1.symm
            subst hset'
            obtain ⟨h1, h2, h3, h4, h5⟩ := (leadingDerivations_eq_five lib masterMnemonic).1 hk
            have g1 := derive_ok lib _ _ masterMnemonic h1
            have g2 := derive_ok lib _ _ masterMnemonic h2
            have g3 := derive_ok lib _ _ masterMnemonic h3
            have g4 := derive_ok lib _ _ masterMnemonic h4
            have g5 := derive_ok lib _ _ masterMnemonic h5
            refine ⟨fun _ => ⟨?_, ?_, ?_, ?_, ?_, ?_, ?_, ?_⟩, fun h => by simp at h⟩
            · rw [hset]; exact Prod.ext rfl h1
            · rw [hset]; exact Prod.ext rfl h2
            · rw [hset]; exact Prod.ext rfl h3
            · rw [hset]; exact Prod.ext rfl h4
            · rw [hset]; exact Prod.ext rfl h5
            · rw [hset]; rfl
            · intro hdir
              simp only [hdir, ne_eq, not_true_eq_false, if_false, Prod.mk.injEq] at hrun
              simp only at hst
              rw [← hrun.2, hst]
              have hdrop : (s.trace ++ [Event.checkMnemonic masterMnemonic none,
                  Event.checkPath [masterkeys] true none] ++ evs).drop s.trace.length =
                  [Event.checkMnemonic masterMnemonic none,
                    Event.checkPath [masterkeys] true none] ++ evs := by
                simp
              rw [hdrop, writeSteps_append, hws]
              simp [writeSteps, Event.request?]
            · intro hne hid
              rw [hset]
              exact ⟨hne _ _ g1, hne _ _ g2, hne _ _ g3, hne _ _ g4, hne _ _ g5, hid _⟩
          · simp at hrun
        · simp at hrun
    · unfold MasterKeysGen at hrun
      simp [hc, hp] at hrun
  · unfold MasterKeysGen at hrun
    simp [hc] at hrun

/-- C5, witness of the amended claim: the run in the in-memory sample world
returns a nil error, and the fields of the returned set are the derived child
mnemonics. -/
theorem MasterKeysGen_nil_error_set_witness :
    (MasterKeysGen sampleLib memSys sampleMaster DefaultPrefix DefaultPath sampleDir
        sampleStart).1 = .returned (sampleSet, none) ∧
      derive sampleLib (lit "validator") (lit "node") sampleMaster =
        (sampleSet.ValidatorNodeMnemonic, none) ∧
      derive sampleLib (lit "priv") (lit "key") sampleMaster =
        (sampleSet.PrivKeyMnemonic, none) ∧
      sampleSet.ValidatorNodeId = sampleLib.nodeID sampleSet.ValidatorNodeMnemonic :=
  ⟨sample_run_mem,
    ((MasterKeysGen_nil_error_set sampleLib memSys sampleMaster DefaultPrefix DefaultPath
      sampleDir sampleStart
      (MasterKeysGen sampleLib memSys sampleMaster DefaultPrefix DefaultPath sampleDir
        sampleStart).2
      sampleSet (eq_mk_of_fst _ _ sample_run_mem)).1 rfl).1,
    ((MasterKeysGen_nil_error_set sampleLib memSys sampleMaster DefaultPrefix DefaultPath
      sampleDir sampleStart
      (MasterKeysGen sampleLib memSys sampleMaster DefaultPrefix DefaultPath sampleDir
        sampleStart).2
      sampleSet (eq_mk_of_fst _ _ sample_run_mem)).1 rfl).2.2.2.2.1,
    ((MasterKeysGen_nil_error_set sampleLib memSys sampleMaster DefaultPrefix DefaultPath
      sampleDir sampleStart
      (MasterKeysGen sampleLib memSys sampleMaster DefaultPrefix DefaultPath sampleDir
        sampleStart).2
      sampleSet (eq_mk_of_fst _ _ sample_run_mem)).1 rfl).2.2.2.2.2.1⟩

/-- C6, counterexample. The role labels (`signer`, `addr`) and (`signera`,
`ddr`) are distinct, and for the sample master mnemonic both feed the same
string to the hash: the hashed master mnemonic followed by `;signeraddr`. -/
theorem stringToHash_label_counterexample :
    (lit "signer", lit "addr") ≠ (lit "signera", lit "ddr") ∧
      stringToHash sampleLib.caseTable (lit "signer") (lit "addr") sampleMaster =
        sampleHashed ++ lit ";signeraddr" ∧
      stringToHash sampleLib.caseTable (lit "signera") (lit "ddr") sampleMaster =
        sampleHashed ++ lit ";signeraddr" := by
  decide

/-- C6, amended. For every master mnemonic, two role labels feed the same
string to the hash exactly when the lower-cased, space-free name followed by the
lower-cased, space-free type is the same for both labels; labels that differ in
letter case, in spaces or in the place where the name ends and the type begins
share their hash input and hence their entropy. The entropy of a label is the
SHA-256 digest of its hashed string, so two labels have the same entropy exactly
when the digests of their two hashed strings are equal: labels whose hashed
strings differ yield the same entropy only if SHA-256 collides on these two
different strings. -/
theorem stringToHash_eq_iff (caseTable : Nat → Nat) (name1 type1 name2 type2 master : Bytes) :
    (stringToHash caseTable name1 type1 master = stringToHash caseTable name2 type2 master ↔
      removeSpaces (stringsToLower caseTable name1) ++
          removeSpaces (stringsToLower caseTable type1) =
        removeSpaces (stringsToLower caseTable name2) ++
          removeSpaces (stringsToLower caseTable type2)) ∧
    entropy caseTable name1 type1 master =
      (sha256Sum (stringToHash caseTable name1 type1 master), none) ∧
    entropy caseTable name2 type2 master =
      (sha256Sum (stringToHash caseTable name2 type2 master), none) ∧
    ((entropy caseTable name1 type1 master).1 = (entropy caseTable name2 type2 master).1 ↔
      sha256Sum (stringToHash caseTable name1 type1 master) =
        sha256Sum (stringToHash caseTable name2 type2 master)) ∧
    (stringToHash caseTable name1 type1 master ≠ stringToHash caseTable name2 type2 master →
      (entropy caseTable name1 type1 master).1 = (entropy caseTable name2 type2 master).1 →
        stringToHash caseTable name1 type1 master ≠ stringToHash caseTable name2 type2 master ∧
          sha256Sum (stringToHash caseTable name1 type1 master) =
            sha256Sum (stringToHash caseTable name2 type2 master)) := by
  have h1 : entropy caseTable name1 type1 master =
      (sha256Sum (stringToHash caseTable name1 type1 master), none) := by
    unfold entropy
    rw [hexDecodeString_entropyHex]
  have h2 : entropy caseTable name2 type2 master =
      (sha256Sum (stringToHash caseTable name2 type2 master), none) := by
    unfold entropy
    rw [hexDecodeString_entropyHex]
  refine ⟨?_, h1, h2, ?_, ?_⟩
  · rw [stringToHash_eq, stringToHash_eq]
    simp
  · rw [h1, h2]
  · intro hne heq
    rw [h1, h2] at heq
    exact ⟨hne, heq⟩

/-- C7. Artifact emission order and abort on first failure. With a valid
master mnemonic, a passing path check and a non-empty output directory, the
write steps of a run of `MasterKeysGen` are the first `k` requests of the fixed
order: `<dir>/validator_node_key.json` and `<dir>/validator_node_id.key` from
the validator-node mnemonic, `<dir>/priv_validator_key.json` from the
validator-val mnemonic, then `<dir>/mnemonics.env`, created and written. At
least one write is requested exactly when the five derivations succeed and the
validator-node mnemonic passes its check. Every write step but the last
succeeded; once a write is requested the run returns the complete set with the
outcome of the last write step, and it stops short of the full order only when
that step failed. The trace is faithful to the outside world: every step was
answered by the external routine in the world left by the steps before it, and
the world the run ends in is the world after all its steps. In particular, when
the write of the node identifier file fails, the write steps are the successful
node key write and the failed node identifier write and nothing more, the run
returns that error, and the world it ends in is the one the failed call left
after the node key write had acted on the world of the path check. -/
theorem MasterKeysGen_emission_order {W : Type} (lib : Lib) (sys : Sys W)
    (masterMnemonic defaultPrefix defaultPath masterkeys : Bytes) (s : State W) (w : W)
    (hvalid : lib.checkMnemonic masterMnemonic = none)
    (hpath : sys.checkPath [masterkeys] s.world = (w, true, none))
    (hdir : masterkeys ≠ []) :
    ∃ k, k ≤ 5 ∧
      (MasterKeysGen lib sys masterMnemonic defaultPrefix defaultPath masterkeys s).2.trace =
        s.trace ++ (MasterKeysGen lib sys masterMnemonic defaultPrefix defaultPath masterkeys
          s).2.trace.drop s.trace.length ∧
      (writeSteps ((MasterKeysGen lib sys masterMnemonic defaultPrefix defaultPath masterkeys
          s).2.trace.drop s.trace.length)).filterMap Event.request? =
        (emissionOrder (derive lib (lit "validator") (lit "node") masterMnemonic).1
          (derive lib (lit "validator") (lit "val") masterMnemonic).1
          defaultPrefix defaultPath masterkeys
          (dataToWrite masterMnemonic (setAfter lib masterMnemonic 5))).take k ∧
      (∀ ev ∈ (writeSteps ((MasterKeysGen lib sys masterMnemonic defaultPrefix defaultPath
          masterkeys s).2.trace.drop s.trace.length)).dropLast, ev.error? = none) ∧
      (1 ≤ k ↔
        (∀ r ∈ orchestratedRoles, (derive lib r.1 r.2 masterMnemonic).2 = none) ∧
          lib.checkMnemonic (derive lib (lit "validator") (lit "node") masterMnemonic).1 =
            none) ∧
      (1 ≤ k →
        (MasterKeysGen lib sys masterMnemonic defaultPrefix defaultPath masterkeys s).1 =
          .returned (setAfter lib masterMnemonic 5,
            ((writeSteps ((MasterKeysGen lib sys masterMnemonic defaultPrefix defaultPath
              masterkeys s).2.trace.drop s.trace.length)).getLast?).bind Event.error?)) ∧
      (1 ≤ k → k < 5 →
        ((writeSteps ((MasterKeysGen lib sys masterMnemonic defaultPrefix defaultPath
          masterkeys s).2.trace.drop s.trace.length)).getLast?).bind Event.error? ≠ none) ∧
      faithful sys ((MasterKeysGen lib sys masterMnemonic defaultPrefix defaultPath masterkeys
        s).2.trace.drop s.trace.length) s.world ∧
      (MasterKeysGen lib sys masterMnemonic defaultPrefix defaultPath masterkeys s).2.world =
        worldAfter sys ((MasterKeysGen lib sys masterMnemonic defaultPrefix defaultPath
          masterkeys s).2.trace.drop s.trace.length) s.world ∧
      (∀ e,
        Event.valKeyGen
            (writeArgs (derive lib (lit "validator") (lit "node") masterMnemonic).1
              defaultPrefix defaultPath [] [] (masterkeys ++ lit "/validator_node_id.key"))
            (some e) ∈
          (MasterKeysGen lib sys masterMnemonic defaultPrefix defaultPath masterkeys
            s).2.trace.drop s.trace.length →
        writeSteps ((MasterKeysGen lib sys masterMnemonic defaultPrefix defaultPath masterkeys
            s).2.trace.drop s.trace.length) =
          [.valKeyGen
              (writeArgs (derive lib (lit "validator") (lit "node") masterMnemonic).1
                defaultPrefix defaultPath [] (masterkeys ++ lit "/validator_node_key.json") [])
              none,
            .valKeyGen
              (writeArgs (derive lib (lit "validator") (lit "node") masterMnemonic).1
                defaultPrefix defaultPath [] [] (masterkeys ++ lit "/validator_node_id.key"))
              (some e)] ∧
        (MasterKeysGen lib sys masterMnemonic defaultPrefix defaultPath masterkeys s).1 =
          .returned (setAfter lib masterMnemonic 5, some e) ∧
        (sys.valKeyGen
            (writeArgs (derive lib (lit "validator") (lit "node") masterMnemonic).1
              defaultPrefix defaultPath [] (masterkeys ++ lit "/validator_node_key.json") [])
            w).2 = none ∧
        sys.valKeyGen
            (writeArgs (derive lib (lit "validator") (lit "node") masterMnemonic).1
              defaultPrefix defaultPath [] [] (masterkeys ++ lit "/validator_node_id.key"))
            (sys.valKeyGen
              (writeArgs (derive lib (lit "validator") (lit "node") masterMnemonic).1
                defaultPrefix defaultPath [] (masterkeys ++ lit "/validator_node_key.json") [])
              w).1 =
          ((MasterKeysGen lib sys masterMnemonic defaultPrefix defaultPath masterkeys
            s).2.world, some e)) := by
  rw [MasterKeysGen_of_ok lib sys _ _ _ _ s w hvalid hpath]
  obtain ⟨evs, hst, hws, -, -, -, hErr, hOk, hExit, hworld⟩ := deriveKeys_spec lib masterMnemonic
    { world := w,
      trace := s.trace ++ [.checkMnemonic masterMnemonic none,
        .checkPath [masterkeys] true none] } hvalid
  have hchecksW : worldAfter sys [Event.checkMnemonic masterMnemonic none,
      Event.checkPath [masterkeys] true none] s.world = w := by
    simp [worldAfter, Event.act, hpath]
  have hchecksF : faithful sys [Event.checkMnemonic masterMnemonic none,
      Event.checkPath [masterkeys] true none] s.world := by
    simp [faithful, Event.act, Event.answered, hpath]
  have hpreW : worldAfter sys ([Event.checkMnemonic masterMnemonic none,
      Event.checkPath [masterkeys] true none] ++ evs) s.world = w := by
    rw [worldAfter_append, hchecksW]
    exact (hworld sys w).1
  have hpreF : faithful sys ([Event.checkMnemonic masterMnemonic none,
      Event.checkPath [masterkeys] true none] ++ evs) s.world := by
    rw [faithful_append, hchecksW]
    exact ⟨hchecksF, (hworld sys w).2⟩
  have hpreWS : writeSteps ([Event.checkMnemonic masterMnemonic none,
      Event.checkPath [masterkeys] true none] ++ evs) = [] := by
    rw [writeSteps_append, hws]
    simp [writeSteps, Event.request?]
  generalize deriveKeys lib masterMnemonic _ = r at hErr hOk hExit hst ⊢
  rcases r with ⟨_ | _, s2⟩
  · rename_i v
    rcases v with ⟨set, _ | e⟩
    · obtain ⟨hset, hfive, hnode⟩ := hOk set rfl
      subst hset
      simp only [hdir, ne_eq, not_false_eq_true, if_true]
      obtain ⟨evs2, k, hk1, hk5, htr, -, -, hreq, hall, hres, hlt, -, hid, hF, hWd, hid2⟩ :=
        emitArtifacts_spec sys masterMnemonic defaultPrefix defaultPath masterkeys
          (setAfter lib masterMnemonic 5) s2
      have hn1 : (setAfter lib masterMnemonic 5).ValidatorNodeMnemonic =
          (derive lib (lit "validator") (lit "node") masterMnemonic).1 := rfl
      have hn2 : (setAfter lib masterMnemonic 5).ValidatorValMnemonic =
          (derive lib (lit "validator") (lit "val") masterMnemonic).1 := rfl
      rw [hn1, hn2] at hreq
      rw [hn1] at hid hid2 hnode
      simp only at hst
      have hw2 : s2.world = w := by rw [hst]
      rw [hw2] at hF hWd hid2
      have hdrop : (emitArtifacts sys masterMnemonic defaultPrefix defaultPath masterkeys
          (setAfter lib masterMnemonic 5) s2).2.trace.drop s.trace.length =
          [Event.checkMnemonic masterMnemonic none,
            Event.checkPath [masterkeys] true none] ++ evs ++ evs2 := by
        rw [htr, hst]
        simp
      have hW : writeSteps ([Event.checkMnemonic masterMnemonic none,
            Event.checkPath [masterkeys] true none] ++ evs ++ evs2) = writeSteps evs2 := by
        rw [writeSteps_append, hpreWS, List.nil_append]
      rw [hdrop, hW]
      refine ⟨k, hk5, ?_, hreq, hall, ?_, fun _ => hres, fun _ => hlt, ?_, ?_, ?_⟩
      · rw [htr, hst]
        simp
      · exact ⟨fun _ => ⟨all_of_leadingDerivations lib masterMnemonic hfive, hnode⟩,
          fun _ => hk1⟩
      · rw [faithful_append, hpreW]
        exact ⟨hpreF, hF⟩
      · rw [worldAfter_append, hpreW]
        exact hWd
      · intro e hmem
        have hmem2 : Event.valKeyGen
            (writeArgs (derive lib (lit "validator") (lit "node") masterMnemonic).1
              defaultPrefix defaultPath [] [] (masterkeys ++ lit "/validator_node_id.key"))
            (some e) ∈ evs2 := by
          rcases List.mem_append.1 hmem with h | h
          · exact absurd h (not_mem_of_writeSteps_nil _ _ hpreWS rfl)
          · exact h
        have hsteps := hid e hmem2
        refine ⟨hsteps, ?_, (hid2 e hmem2).1, (hid2 e hmem2).2⟩
        rw [hres, hsteps]
        rfl
    · obtain ⟨-, hlt⟩ := hErr set e rfl
      simp only at hst
      have hdrop : s2.trace.drop s.trace.length =
          [Event.checkMnemonic masterMnemonic none,
            Event.checkPath [masterkeys] true none] ++ evs := by
        rw [hst]
        simp
      rw [hdrop, hpreWS]
      refine ⟨0, by omega, ?_, rfl, ?_, ?_, ?_, ?_, hpreF, ?_, ?_⟩
      · rw [hst]
        simp
      · intro ev hev
        cases hev
      · constructor
        · intro h
          omega
        · intro h
          have := leadingDerivations_of_all lib masterMnemonic h.1
          omega
      · intro h
        omega
      · intro h
        omega
      · rw [hpreW, hst]
      · intro e hmem
        exact absurd hmem (not_mem_of_writeSteps_nil _ _ hpreWS rfl)
  · rename_i code
    obtain ⟨-, -, hne⟩ := hExit code rfl
    simp only at hst
    have hdrop : s2.trace.drop s.trace.length =
        [Event.checkMnemonic masterMnemonic none,
          Event.checkPath [masterkeys] true none] ++ evs := by
      rw [hst]
      simp
    rw [hdrop, hpreWS]
    refine ⟨0, by omega, ?_, rfl, ?_, ?_, ?_, ?_, hpreF, ?_, ?_⟩
    · rw [hst]
      simp
    · intro ev hev
      cases hev
    · constructor
      · intro h
        omega
      · intro h
        exact absurd h.2 hne
    · intro h
      omega
    · intro h
      omega
    · rw [hpreW, hst]
    · intro e hmem
      exact absurd hmem (not_mem_of_writeSteps_nil _ _ hpreWS rfl)

/-- C7, witness: in the sample world where only the node identifier file cannot be
written, the write steps of the run are the node key write, which succeeded,
and the node identifier write, which failed; the run returns the complete set
with that error, and the only file of the final world is the node key file. -/
theorem MasterKeysGen_emission_order_witness :
    sampleLib.checkMnemonic sampleMaster = none ∧
      nodeIdFailsSys.checkPath [sampleDir] sampleStart.world = ([], true, none) ∧
      sampleDir ≠ [] ∧
      writeSteps ((MasterKeysGen sampleLib nodeIdFailsSys sampleMaster DefaultPrefix DefaultPath
          sampleDir sampleStart).2.trace.drop sampleStart.trace.length) =
        [.valKeyGen
            (writeArgs (derive sampleLib (lit "validator") (lit "node") sampleMaster).1
              DefaultPrefix DefaultPath [] (sampleDir ++ lit "/validator_node_key.json") [])
            none,
          .valKeyGen
            (writeArgs (derive sampleLib (lit "validator") (lit "node") sampleMaster).1
              DefaultPrefix DefaultPath [] [] (sampleDir ++ lit "/validator_node_id.key"))
            (some permissionDenied)] ∧
      (MasterKeysGen sampleLib nodeIdFailsSys sampleMaster DefaultPrefix DefaultPath sampleDir
        sampleStart).1 = .returned (sampleSet, some permissionDenied) ∧
      (MasterKeysGen sampleLib nodeIdFailsSys sampleMaster DefaultPrefix DefaultPath sampleDir
        sampleStart).2.world =
        [(sampleDir ++ lit "/validator_node_key.json",
          (derive sampleLib (lit "validator") (lit "node") sampleMaster).1)] := by
  obtain ⟨k, -, -, -, -, -, -, -, -, -, h⟩ := MasterKeysGen_emission_order sampleLib
    nodeIdFailsSys sampleMaster DefaultPrefix DefaultPath sampleDir sampleStart []
    (by decide) rfl (by decide)
  obtain ⟨h1, h2, -, h4⟩ := h permissionDenied sample_run_nodeIdFails
  rw [sampleSet_eq] at h2
  refine ⟨by decide, rfl, by decide, h1, h2, ?_⟩
  generalize (MasterKeysGen sampleLib nodeIdFailsSys sampleMaster DefaultPrefix DefaultPath
    sampleDir sampleStart).2.world = world at h4 ⊢
  generalize (derive sampleLib (lit "validator") (lit "node") sampleMaster).1 = node at h4 ⊢
  simp [nodeIdFailsSys, memSys, writeArgs, lit_nodeId_ne_nil, lit_nodeKey_ne_nil] at h4
  exact h4.symm

/-- C8. The content of the summary file. On every successful run with a passing
path check and a non-empty output directory, the one write to
`<dir>/mnemonics.env` carries the six `KEY=VALUE` lines of the summary, in the
fixed order and each ended by a line break, followed by one space character:
the data does not end with the line break of the sixth line. -/
theorem MasterKeysGen_summary_data {W : Type} (lib : Lib) (sys : Sys W)
    (masterMnemonic defaultPrefix defaultPath masterkeys : Bytes) (s s' : State W)
    (mnemonicSet : MasterMnemonicSet)
    (hrun : MasterKeysGen lib sys masterMnemonic defaultPrefix defaultPath masterkeys s =
      (.returned (mnemonicSet, none), s'))
    (hok : (sys.checkPath [masterkeys] s.world).2.1 = true)
    (hdir : masterkeys ≠ []) :
    Event.writeString (masterkeys ++ lit "/mnemonics.env")
        (summaryLines masterMnemonic mnemonicSet ++ [0x20]) none ∈
      s'.trace.drop s.trace.length ∧
    (∀ path data err, Event.writeString path data err ∈ s'.trace.drop s.trace.length →
      path = masterkeys ++ lit "/mnemonics.env" ∧
        data = summaryLines masterMnemonic mnemonicSet ++ [0x20]) ∧
    summaryLines masterMnemonic mnemonicSet ++ [0x20] ≠
      summaryLines masterMnemonic mnemonicSet := by
  refine ⟨?_, ?_, append_singleton_ne_self _ _⟩
  all_goals
    rcases hc : lib.checkMnemonic masterMnemonic with _ | ec
    swap
    · unfold MasterKeysGen at hrun
      simp [hc] at hrun
    rcases hp : sys.checkPath [masterkeys] s.world with ⟨w, ok, _ | ep⟩
    swap
    · unfold MasterKeysGen at hrun
      simp [hc, hp] at hrun
    rw [hp] at hok
    simp only at hok
    subst hok
    rw [MasterKeysGen_of_ok lib sys _ _ _ _ s w hc hp] at hrun
    obtain ⟨evs, hst, hws, -, -, -, hErr, hOk, -⟩ := deriveKeys_spec lib masterMnemonic
      { world := w,
        trace := s.trace ++ [.checkMnemonic masterMnemonic none,
          .checkPath [masterkeys] true none] } hc
    generalize deriveKeys lib masterMnemonic _ = r at hrun hErr hOk hst
    rcases r with ⟨_ | _, s2⟩
    swap
    · simp at hrun
    rename_i v
    rcases v with ⟨set, _ | e⟩
    swap
    · simp at hrun
    simp only [hdir, ne_eq, not_false_eq_true, if_true] at hrun
    obtain ⟨evs2, k, -, -, htr, -, -, -, -, hres, -, hsucc, -⟩ :=
      emitArtifacts_spec sys masterMnemonic defaultPrefix defaultPath masterkeys set s2
    rw [hrun] at hres htr
    simp only [Outcome.returned.injEq, Prod.mk.injEq] at hres
    obtain ⟨hset, hnone⟩ := hres
    subst hset
    have hevs2 := hsucc hnone.symm
    simp only at hst htr
    have hdrop : s'.trace.drop s.trace.length =
        [Event.checkMnemonic masterMnemonic none,
          Event.checkPath [masterkeys] true none] ++ evs ++ evs2 := by
      rw [htr, hst]
      simp
    rw [hdrop, dataToWrite_eq] at *
  · rw [hevs2]
    simp
  · intro path data err hmem
    rcases List.mem_append.1 hmem with h | h
    · rcases List.mem_append.1 h with h | h
      · simp at h
      · exact absurd h (not_mem_of_writeSteps_nil evs _ hws rfl)
    · rw [hevs2] at h
      simp at h
      exact ⟨h.1, h.2.1⟩

/-- C8, witness: the successful sample run writes the six lines followed by a
space to `/tmp/out/mnemonics.env`. -/
theorem MasterKeysGen_summary_data_witness :
    (MasterKeysGen sampleLib memSys sampleMaster DefaultPrefix DefaultPath sampleDir
        sampleStart).1 = .returned (sampleSet, none) ∧
      Event.writeString (sampleDir ++ lit "/mnemonics.env")
          (summaryLines sampleMaster sampleSet ++ [0x20]) none ∈
        (MasterKeysGen sampleLib memSys sampleMaster DefaultPrefix DefaultPath sampleDir
          sampleStart).2.trace.drop sampleStart.trace.length :=
  ⟨sample_run_mem,
    (MasterKeysGen_summary_data sampleLib memSys sampleMaster DefaultPrefix DefaultPath sampleDir
      sampleStart
      (MasterKeysGen sampleLib memSys sampleMaster DefaultPrefix DefaultPath sampleDir
        sampleStart).2
      sampleSet (eq_mk_of_fst _ _ sample_run_mem) rfl (by decide)).1⟩

/-- C9. The entropy layer cannot fail. For every master mnemonic, name and type,
decoding the hexadecimal rendering of the SHA-256 digest succeeds and gives the
digest back, 32 bytes long; `generateFromMasterMnemonic` never returns the error
of the branch "error decoding hex string"; and it returns an error exactly when
the external encoder rejects that 32-byte entropy. -/
theorem generateFromMasterMnemonic_entropy_total (caseTable : Nat → Nat)
    (newMnemonic : Bytes → Except GoError Bytes) (name typeOfMnemonic masterMnemonic : Bytes) :
    entropy caseTable name typeOfMnemonic masterMnemonic =
        (sha256Sum (stringToHash caseTable name typeOfMnemonic masterMnemonic), none) ∧
      (entropy caseTable name typeOfMnemonic masterMnemonic).1.length = 32 ∧
      (∀ err, (generateFromMasterMnemonic caseTable newMnemonic name typeOfMnemonic
          masterMnemonic).2 ≠ some (.wrapped (lit "error decoding hex string: ") err)) ∧
      ((generateFromMasterMnemonic caseTable newMnemonic name typeOfMnemonic
          masterMnemonic).2 ≠ none ↔
        ∃ err, newMnemonic (entropy caseTable name typeOfMnemonic masterMnemonic).1 =
          .error err) := by
  have he : entropy caseTable name typeOfMnemonic masterMnemonic =
      (sha256Sum (stringToHash caseTable name typeOfMnemonic masterMnemonic), none) :=
    hexDecodeString_entropyHex _ _ _ _
  refine ⟨he, ?_, ?_, ?_⟩
  · rw [he]
    exact sha256Sum_length _
  · intro err
    rw [generateFromMasterMnemonic_eq]
    cases newMnemonic (sha256Sum (stringToHash caseTable name typeOfMnemonic masterMnemonic)) with
    | error e =>
      simp only [ne_eq, Option.some.injEq, GoError.wrapped.injEq, not_and]
      intro h
      exact absurd h (by decide)
    | ok w => simp
  · rw [generateFromMasterMnemonic_eq, he]
    cases newMnemonic (sha256Sum (stringToHash caseTable name typeOfMnemonic masterMnemonic)) with
    | error e => simp
    | ok w => simp

/-- C10. The five orchestrated roles never share a hash input. For every master
mnemonic the hashed strings of the labels (`validator`, `node`), (`validator`,
`addr`), (`validator`, `val`), (`signer`, `addr`) and (`priv`, `key`) are
pairwise distinct. Two different roles have the same entropy exactly when
SHA-256 gives their two distinct hashed strings the same digest. When the
derivations of two different roles succeed with the same mnemonic, the encoder
returned that mnemonic for the digests of both hashed strings; with an encoder
that never returns one phrase for two entropies, as the one-to-one BIP-39 encoding is,
the two digests are then equal, a SHA-256 collision on these two distinct strings.
The derivations of any run of `MasterKeysGen` are an initial part of this list
of labels. -/
theorem orchestratedRoles_hash_inputs_distinct (caseTable : Nat → Nat) (masterMnemonic : Bytes) :
    (orchestratedRoles.map
        (fun r => stringToHash caseTable r.1 r.2 masterMnemonic)).Pairwise (· ≠ ·) ∧
    (∀ r1 ∈ orchestratedRoles, ∀ r2 ∈ orchestratedRoles, r1 ≠ r2 →
      stringToHash caseTable r1.1 r1.2 masterMnemonic ≠
          stringToHash caseTable r2.1 r2.2 masterMnemonic ∧
        ((entropy caseTable r1.1 r1.2 masterMnemonic).1 =
            (entropy caseTable r2.1 r2.2 masterMnemonic).1 ↔
          sha256Sum (stringToHash caseTable r1.1 r1.2 masterMnemonic) =
            sha256Sum (stringToHash caseTable r2.1 r2.2 masterMnemonic)) ∧
        (∀ (newMnemonic : Bytes → Except GoError Bytes) (mnemonic : Bytes),
          generateFromMasterMnemonic caseTable newMnemonic r1.1 r1.2 masterMnemonic =
              (mnemonic, none) →
            generateFromMasterMnemonic caseTable newMnemonic r2.1 r2.2 masterMnemonic =
              (mnemonic, none) →
            newMnemonic (sha256Sum (stringToHash caseTable r1.1 r1.2 masterMnemonic)) =
                .ok mnemonic ∧
              newMnemonic (sha256Sum (stringToHash caseTable r2.1 r2.2 masterMnemonic)) =
                .ok mnemonic ∧
              ((∀ a b x, newMnemonic a = .ok x → newMnemonic b = .ok x → a = b) →
                sha256Sum (stringToHash caseTable r1.1 r1.2 masterMnemonic) =
                  sha256Sum (stringToHash caseTable r2.1 r2.2 masterMnemonic)))) ∧
    (∀ {W : Type} (lib : Lib) (sys : Sys W) (defaultPrefix defaultPath masterkeys : Bytes)
        (s : State W),
      derivations ((MasterKeysGen lib sys masterMnemonic defaultPrefix defaultPath masterkeys
        s).2.trace.drop s.trace.length) <+: orchestratedRoles) := by
  obtain ⟨h1, h2, h3, h4, h5, h6, h7⟩ := hashed_role caseTable
  have key : ∀ r1 ∈ orchestratedRoles, ∀ r2 ∈ orchestratedRoles, r1 ≠ r2 →
      stringToHash caseTable r1.1 r1.2 masterMnemonic ≠
        stringToHash caseTable r2.1 r2.2 masterMnemonic := by
    intro r1 hr1 r2 hr2 hne
    simp only [orchestratedRoles, List.mem_cons, List.mem_singleton, List.not_mem_nil,
      or_false] at hr1 hr2
    rcases hr1 with rfl | rfl | rfl | rfl | rfl <;> rcases hr2 with rfl | rfl | rfl | rfl | rfl <;>
      first
        | exact absurd rfl hne
        | (rw [stringToHash_eq, stringToHash_eq]
           simp only [h1, h2, h3, h4, h5, h6, h7, ne_eq, List.append_cancel_left_eq,
             List.cons.injEq, true_and]
           decide)
  have hgen : ∀ (newMnemonic : Bytes → Except GoError Bytes) (name typ mnemonic : Bytes),
      generateFromMasterMnemonic caseTable newMnemonic name typ masterMnemonic =
          (mnemonic, none) →
        newMnemonic (sha256Sum (stringToHash caseTable name typ masterMnemonic)) =
          .ok mnemonic := by
    intro newMnemonic name typ mnemonic hg
    rw [generateFromMasterMnemonic_eq] at hg
    cases hc : newMnemonic (sha256Sum (stringToHash caseTable name typ masterMnemonic)) with
    | error err =>
      rw [hc] at hg
      cases hg
    | ok x =>
      rw [hc] at hg
      cases hg
      rfl
  refine ⟨?_, ?_, ?_⟩
  · rw [List.pairwise_map]
    exact List.Pairwise.imp_of_mem (fun ha hb hne => key _ ha _ hb hne)
      (by decide : orchestratedRoles.Pairwise (· ≠ ·))
  · intro r1 hr1 r2 hr2 hne
    refine ⟨key r1 hr1 r2 hr2 hne, ?_, ?_⟩
    · unfold entropy
      rw [hexDecodeString_entropyHex, hexDecodeString_entropyHex]
    · intro newMnemonic mnemonic hg1 hg2
      have e1 := hgen newMnemonic _ _ _ hg1
      have e2 := hgen newMnemonic _ _ _ hg2
      exact ⟨e1, e2, fun hinj => hinj _ _ _ e1 e2⟩
  · intro W lib sys p d dir s
    exact MasterKeysGen_derivations lib sys masterMnemonic p d dir s

end ValidatorKeyGen
